import Mathlib

/-!
EP0 control-endpoint engine of the MCHCK bootloader USB stack.

A shallow embedding of `bootloader/usb-dfu/usb.c`.

* The global `struct usbd_t usb` is the field `usb` of `Machine`; every C
  function becomes a function on `Machine`, returning its `int` result
  together with the machine afterwards where the C function returns one.
* The header `usb.h` and the hardware driver are not part of the sources.
  The driver functions that receive a pointer to a pipe
  (`usb_tx_queue_next`, `usb_rx_queue_next`) and the hardware query
  `usb_ep_get_transfer_size` are the fields of `usb_driver`, a parameter of
  every function.  Each command issued to the driver, and each invocation
  of a completion callback, is appended to `Machine.log` in program order;
  the event of an arm records the pipe as it was handed to the driver.
  Driver commands that receive no pointer into `usb`, and callbacks, are
  events only.
* `size_t` values are naturals, arithmetic on them is reduced modulo
  `2 ^ SIZE_BITS`; the conversion of a `size_t` to the `int` result is the
  two's complement one on `INT_BITS` bits.
-/

namespace Usb

/-! ## Data model -/

/-- Build constants of the target that `usb.h` and the compiler fix. -/
structure Target where
  /-- width of `size_t` -/
  SIZE_BITS : Nat
  /-- width of `int` -/
  INT_BITS : Nat
  /-- size of one EP0 buffer slot -/
  EP0_BUFSIZE : Nat
deriving DecidableEq, Repr

/-- Pointers the engine stores: `NULL`, the address of the EP0 buffer slot
`usb.ep0_buf[pp]`, or any other address. -/
inductive Ptr where
  | NULL
  | ep0_buf (pp : Nat)
  | addr (a : Nat)
deriving DecidableEq, Repr

/-- The enum `usb_data01`: `USB_DATA01_DATA0`. -/
@[reducible] def USB_DATA01_DATA0 : Nat := 0

/-- The enum `usb_data01`: `USB_DATA01_DATA1`. -/
@[reducible] def USB_DATA01_DATA1 : Nat := 1

/-- The direction argument of `usb_ep_get_transfer_size`. -/
inductive usb_ep_dir where
  | USB_EP_RX
  | USB_EP_TX
deriving DecidableEq, Repr

/-- The per direction record `struct usbd_ep_pipe_state_t`, with the fields
`usb.c` reads and writes.  `callback` is `none` for a `NULL` function
pointer, otherwise the identity of the registered function. -/
structure usbd_ep_pipe_state_t where
  pingpong : Nat
  data01 : Nat
  transfer_size : Nat
  pos : Nat
  data_buf : Ptr
  short_transfer : Int
  callback : Option Nat
  callback_data : Ptr
  ep_maxsize : Nat
deriving DecidableEq, Repr

/-- The pair `usb.ep0_state`. -/
structure usbd_ep_state_t where
  tx : usbd_ep_pipe_state_t
  rx : usbd_ep_pipe_state_t
deriving DecidableEq, Repr

/-- The enum of `usb.state`. -/
inductive usbd_state where
  | USBD_STATE_DEFAULT
  | USBD_STATE_SETTING_ADDRESS
  | USBD_STATE_ADDRESS
  | USBD_STATE_CONFIGURED
deriving DecidableEq, Repr

/-- The enum of `usb.ctrl_state`. -/
inductive usbd_ctrl_state where
  | USBD_CTRL_STATE_IDLE
  | USBD_CTRL_STATE_DATA
  | USBD_CTRL_STATE_STATUS
deriving DecidableEq, Repr

/-- The global `struct usbd_t usb`, with the members `usb.c` uses; the
declaration is in `usb.h`, so the member types follow the specification's
data model: `address` is the 7-bit device address, `config` the 8-bit
configuration index, `ep0_buf` the bytes of the two EP0 buffer slots. -/
structure usbd_t where
  address : Nat
  config : Nat
  state : usbd_state
  ctrl_state : usbd_ctrl_state
  ep0_state : usbd_ep_state_t
  ep0_buf : List (List Nat)
deriving DecidableEq, Repr

/-- What the engine asks of its collaborators, in program order. -/
inductive usb_event where
  | tx_queue_next (s : usbd_ep_pipe_state_t)
  | rx_queue_next (s : usbd_ep_pipe_state_t)
  | callback (cb : Nat) (buf : Ptr) (len : Nat) (data : Ptr)
  | ep_stall (ep : Nat)
  | set_addr (addr : Nat)
  | clear_transfers
  | enable_xfers
deriving DecidableEq, Repr

/-- The hardware driver, as far as it can write to a pipe or report a
value. -/
structure usb_driver where
  usb_tx_queue_next : usbd_ep_pipe_state_t → usbd_ep_pipe_state_t
  usb_rx_queue_next : usbd_ep_pipe_state_t → usbd_ep_pipe_state_t
  usb_ep_get_transfer_size : Nat → usb_ep_dir → Nat → Nat

/-- The global state together with the log of collaborator calls. -/
structure Machine where
  usb : usbd_t
  log : List usb_event
deriving DecidableEq, Repr

/-- The type field of a SETUP packet. -/
inductive usb_ctrl_req_type where
  | USB_CTRL_REQ_STD
  | USB_CTRL_REQ_CLASS
  | USB_CTRL_REQ_VENDOR
  | USB_CTRL_REQ_RESERVED
deriving DecidableEq, Repr

/-- The decoded SETUP packet `struct usb_ctrl_req_t`. -/
structure usb_ctrl_req_t where
  type : usb_ctrl_req_type
  request : Nat
  value : Nat
  index : Nat
  length : Nat
deriving DecidableEq, Repr

/-- The transaction kinds `usb_get_xfer_pid` reports. -/
inductive usb_pid where
  | USB_PID_SETUP
  | USB_PID_IN
  | USB_PID_OUT
  | other (pid : Nat)
deriving DecidableEq, Repr

/-- The completion record `struct usb_xfer_info`: what `usb_get_xfer_pid`
and `usb_get_xfer_data` read from it. -/
structure usb_xfer_info where
  pid : usb_pid
  data : usb_ctrl_req_t
deriving DecidableEq, Repr

@[reducible] def USB_CTRL_REQ_GET_STATUS : Nat := 0
@[reducible] def USB_CTRL_REQ_CLEAR_FEATURE : Nat := 1
@[reducible] def USB_CTRL_REQ_SET_FEATURE : Nat := 3
@[reducible] def USB_CTRL_REQ_SET_ADDRESS : Nat := 5
@[reducible] def USB_CTRL_REQ_GET_DESCRIPTOR : Nat := 6
@[reducible] def USB_CTRL_REQ_GET_CONFIGURATION : Nat := 8
@[reducible] def USB_CTRL_REQ_SET_CONFIGURATION : Nat := 9
@[reducible] def USB_CTRL_REQ_GET_INTERFACE : Nat := 10
@[reducible] def USB_CTRL_REQ_SET_INTERFACE : Nat := 11

/-! ## Machine arithmetic -/

/-- Subtraction of `size_t` values. -/
def size_sub (t : Target) (a b : Nat) : Nat :=
  (a + (2 ^ t.SIZE_BITS - b % 2 ^ t.SIZE_BITS)) % 2 ^ t.SIZE_BITS

/-- Addition of `size_t` values. -/
def size_add (t : Target) (a b : Nat) : Nat :=
  (a + b) % 2 ^ t.SIZE_BITS

/-- Conversion of a `size_t` to the `int` a function returns. -/
def size_to_int (t : Target) (v : Nat) : Int :=
  if v % 2 ^ t.INT_BITS < 2 ^ (t.INT_BITS - 1) then ((v % 2 ^ t.INT_BITS : Nat) : Int)
  else ((v % 2 ^ t.INT_BITS : Nat) : Int) - 2 ^ t.INT_BITS

/-! ## State access -/

/-- Store into `usb.ep0_state.tx`. -/
def set_tx (m : Machine) (s : usbd_ep_pipe_state_t) : Machine :=
  { m with usb := { m.usb with ep0_state := { m.usb.ep0_state with tx := s } } }

/-- Store into `usb.ep0_state.rx`. -/
def set_rx (m : Machine) (s : usbd_ep_pipe_state_t) : Machine :=
  { m with usb := { m.usb with ep0_state := { m.usb.ep0_state with rx := s } } }

/-- Append one collaborator call to the log. -/
def emit (m : Machine) (e : usb_event) : Machine :=
  { m with log := m.log ++ [e] }

/-- The call `s->callback(s->data_buf, len, s->callback_data)` guarded by
`if (s->callback)`. -/
def run_callback (m : Machine) (s : usbd_ep_pipe_state_t) (len : Nat) : Machine :=
  match s.callback with
  | none => m
  | some cb => emit m (usb_event.callback cb s.data_buf len s.callback_data)

/-- The call `usb_tx_queue_next(s)` on the TX pipe of EP0. -/
def tx_queue_next (d : usb_driver) (m : Machine) : Machine :=
  set_tx (emit m (usb_event.tx_queue_next m.usb.ep0_state.tx))
    (d.usb_tx_queue_next m.usb.ep0_state.tx)

/-- The call `usb_rx_queue_next(s)` on the RX pipe of EP0. -/
def rx_queue_next (d : usb_driver) (m : Machine) : Machine :=
  set_rx (emit m (usb_event.rx_queue_next m.usb.ep0_state.rx))
    (d.usb_rx_queue_next m.usb.ep0_state.rx)

/-! ## The transfer queuer -/

/-- The function `usb_tx_next`. -/
def usb_tx_next (d : usb_driver) (m : Machine) : Int × Machine :=
  let s := m.usb.ep0_state.tx
  let m1 := set_tx m { s with data01 := s.data01 ^^^ 1 }
  if m1.usb.ep0_state.tx.transfer_size > 0 then
    (1, tx_queue_next d m1)
  else if m1.usb.ep0_state.tx.short_transfer ≠ 0 then
    let m2 := set_tx m1 { m1.usb.ep0_state.tx with short_transfer := 0 }
    (1, tx_queue_next d m2)
  else
    (0, run_callback m1 m1.usb.ep0_state.tx 0)

/-- The function `usb_tx`. -/
def usb_tx (t : Target) (d : usb_driver) (buf : Ptr) (len reqlen : Nat)
    (cb : Option Nat) (cb_data : Ptr) (m : Machine) : Int × Machine :=
  let s := m.usb.ep0_state.tx
  let s1 := { s with data_buf := buf, transfer_size := len, pos := 0,
                     callback := cb, callback_data := cb_data }
  let s2 := if s1.transfer_size > reqlen then { s1 with transfer_size := reqlen } else s1
  let s3 := if s2.transfer_size = reqlen then { s2 with short_transfer := 0 }
            else { s2 with short_transfer := 1 }
  let m1 := tx_queue_next d (set_tx m s3)
  (size_to_int t m1.usb.ep0_state.tx.transfer_size, m1)

/-- The copy `memcpy(dest, src, len)` into a buffer slot. -/
def memcpy (dest src : List Nat) (len : Nat) : List Nat :=
  src.take len ++ dest.drop len

/-- The function `usb_tx_cp`; `buf` is the content of the object copied
from. -/
def usb_tx_cp (t : Target) (d : usb_driver) (buf : List Nat) (len : Nat)
    (m : Machine) : Int × Machine :=
  let pp := m.usb.ep0_state.tx.pingpong
  let destbuf := Ptr.ep0_buf pp
  if len > t.EP0_BUFSIZE then
    (-1, m)
  else
    let m1 := { m with usb := { m.usb with
      ep0_buf := m.usb.ep0_buf.set pp (memcpy (m.usb.ep0_buf.getD pp []) buf len) } }
    usb_tx t d destbuf len len none Ptr.NULL m1

/-- The function `usb_rx_next`. -/
def usb_rx_next (t : Target) (d : usb_driver) (m : Machine) : Int × Machine :=
  let s := m.usb.ep0_state.rx
  let s1 := { s with data01 := s.data01 ^^^ 1 }
  let thislen := d.usb_ep_get_transfer_size 0 usb_ep_dir.USB_EP_RX s1.pingpong
  let s2 := { s1 with transfer_size := size_sub t s1.transfer_size thislen }
  let s3 := { s2 with pos := size_add t s2.pos thislen }
  let s4 := { s3 with pingpong := s3.pingpong ^^^ 1 }
  let m1 := set_rx m s4
  if thislen < s4.ep_maxsize ∨ s4.transfer_size = 0 then
    (0, run_callback m1 s4 s4.pos)
  else
    (1, rx_queue_next d m1)

/-- The function `usb_rx`. -/
def usb_rx (t : Target) (d : usb_driver) (buf : Ptr) (len : Nat)
    (cb : Option Nat) (cb_data : Ptr) (m : Machine) : Int × Machine :=
  let s := m.usb.ep0_state.rx
  let s1 := { s with data_buf := buf, transfer_size := len, pos := 0,
                     callback := cb, callback_data := cb_data }
  let m1 := rx_queue_next d (set_rx m s1)
  (size_to_int t len, m1)

/-! ## The control request dispatcher -/

/-- The function `usb_handle_control`. -/
def usb_handle_control (t : Target) (d : usb_driver) (req : usb_ctrl_req_t)
    (m : Machine) : Int × Machine :=
  let zero16 : List Nat := [0, 0]
  if req.type ≠ usb_ctrl_req_type.USB_CTRL_REQ_STD then
    (-1, m)
  else if req.request = USB_CTRL_REQ_GET_STATUS then
    usb_tx_cp t d zero16 2 m
  else if req.request = USB_CTRL_REQ_CLEAR_FEATURE ∨ req.request = USB_CTRL_REQ_SET_FEATURE then
    (0, m)
  else if req.request = USB_CTRL_REQ_SET_ADDRESS then
    (0, { m with usb := { m.usb with address := req.value &&& 0x7f,
                                     state := usbd_state.USBD_STATE_SETTING_ADDRESS } })
  else if req.request = USB_CTRL_REQ_GET_DESCRIPTOR then
    (0, m)
  else if req.request = USB_CTRL_REQ_GET_CONFIGURATION then
    usb_tx_cp t d [m.usb.config] 1 m
  else if req.request = USB_CTRL_REQ_SET_CONFIGURATION then
    (0, { m with usb := { m.usb with config := req.value % 256,
                                     state := usbd_state.USBD_STATE_CONFIGURED } })
  else if req.request = USB_CTRL_REQ_GET_INTERFACE then
    usb_tx_cp t d zero16 1 m
  else if req.request = USB_CTRL_REQ_SET_INTERFACE then
    (-1, m)
  else
    (-1, m)

/-! ## The control endpoint state machine -/

/-- Store into `usb.ctrl_state`. -/
def set_ctrl_state (m : Machine) (c : usbd_ctrl_state) : Machine :=
  { m with usb := { m.usb with ctrl_state := c } }

/-- The function `usb_setup_control`. -/
def usb_setup_control (t : Target) (d : usb_driver) (m : Machine) : Machine :=
  let buf := Ptr.ep0_buf m.usb.ep0_state.rx.pingpong
  let m1 := set_rx m { m.usb.ep0_state.rx with data01 := USB_DATA01_DATA0 }
  let m2 := set_tx m1 { m1.usb.ep0_state.tx with data01 := USB_DATA01_DATA1 }
  (usb_rx t d buf t.EP0_BUFSIZE none Ptr.NULL m2).2

/-- The code of `usb_handle_control_ep` from the label `status_or_done` on. -/
def status_or_done (t : Target) (d : usb_driver) (stat : usb_xfer_info)
    (m : Machine) : Machine :=
  match m.usb.ctrl_state with
  | usbd_ctrl_state.USBD_CTRL_STATE_DATA =>
    let m1 := set_ctrl_state m usbd_ctrl_state.USBD_CTRL_STATE_STATUS
    match stat.pid with
    | usb_pid.USB_PID_IN =>
      let m2 := set_rx m1 { m1.usb.ep0_state.rx with data01 := USB_DATA01_DATA1 }
      (usb_rx t d Ptr.NULL 0 none Ptr.NULL m2).2
    | _ =>
      let m2 := set_tx m1 { m1.usb.ep0_state.tx with data01 := USB_DATA01_DATA1 }
      (usb_tx t d Ptr.NULL 0 0 none Ptr.NULL m2).2
  | _ =>
    let m1 := set_ctrl_state m usbd_ctrl_state.USBD_CTRL_STATE_IDLE
    let m2 :=
      if m1.usb.state = usbd_state.USBD_STATE_SETTING_ADDRESS then
        emit { m1 with usb := { m1.usb with state := usbd_state.USBD_STATE_ADDRESS } }
          (usb_event.set_addr m1.usb.address)
      else m1
    usb_setup_control t d m2

/-- The function `usb_handle_control_ep`. -/
def usb_handle_control_ep (t : Target) (d : usb_driver) (stat : usb_xfer_info)
    (m : Machine) : Machine :=
  match stat.pid with
  | usb_pid.USB_PID_SETUP =>
    let m1 := emit m usb_event.clear_transfers
    let req := stat.data
    let r := usb_handle_control t d req m1
    let m3 :=
      if r.1 = 0 then
        (usb_tx t d Ptr.NULL 0 0 none Ptr.NULL
          (set_ctrl_state r.2 usbd_ctrl_state.USBD_CTRL_STATE_STATUS)).2
      else if r.1 = -1 then
        usb_setup_control t d (emit r.2 (usb_event.ep_stall 0))
      else
        set_ctrl_state r.2 usbd_ctrl_state.USBD_CTRL_STATE_DATA
    emit m3 usb_event.enable_xfers
  | usb_pid.USB_PID_IN =>
    let r := usb_tx_next d m
    if r.1 ≠ 0 then r.2 else status_or_done t d stat r.2
  | usb_pid.USB_PID_OUT =>
    let r := usb_rx_next t d m
    if r.1 ≠ 0 then r.2 else status_or_done t d stat r.2
  | usb_pid.other _ => m

/-! ## A driver that moves chunks -/

/-- Modelled from the spec: the driver function `usb_tx_queue_next` is not
among the sources.  It programs the hardware to send the next chunk of the
pipe, `min(transfer_size, ep_maxsize)` bytes, and moves that many bytes
from `transfer_size` to `pos`. -/
def chunk_tx_queue_next (t : Target) (s : usbd_ep_pipe_state_t) : usbd_ep_pipe_state_t :=
  let thislen := min s.transfer_size s.ep_maxsize
  { s with transfer_size := s.transfer_size - thislen, pos := size_add t s.pos thislen }

/-- Modelled from the spec: the driver function `usb_rx_queue_next` is not
among the sources.  It programs the hardware to receive the next chunk and
leaves the accounting to `usb_rx_next`. -/
def chunk_rx_queue_next (s : usbd_ep_pipe_state_t) : usbd_ep_pipe_state_t := s

/-- The driver built from `chunk_tx_queue_next` and `chunk_rx_queue_next`;
`rxlen` is what the hardware reports as received. -/
def chunk_driver (t : Target) (rxlen : Nat → usb_ep_dir → Nat → Nat) : usb_driver :=
  { usb_tx_queue_next := chunk_tx_queue_next t
    usb_rx_queue_next := chunk_rx_queue_next
    usb_ep_get_transfer_size := rxlen }

/-- The bytes one arm of the chunk driver sends for the pipe handed to it. -/
def chunk_len (s : usbd_ep_pipe_state_t) : Nat := min s.transfer_size s.ep_maxsize

/-- The pipes handed to `usb_tx_queue_next`, in order, in a log. -/
def tx_arms : List usb_event → List usbd_ep_pipe_state_t
  | [] => []
  | usb_event.tx_queue_next s :: l => s :: tx_arms l
  | _ :: l => tx_arms l

/-- The pipes handed to `usb_rx_queue_next`, in order, in a log. -/
def rx_arms : List usb_event → List usbd_ep_pipe_state_t
  | [] => []
  | usb_event.rx_queue_next s :: l => s :: rx_arms l
  | _ :: l => rx_arms l

/-- The completion interrupts of one TX transfer: `usb_tx_next` is called
once per completed transaction until it returns 0; `none` when `fuel`
transactions were not enough. -/
def tx_run (d : usb_driver) : Nat → Machine → Option Machine
  | 0, _ => none
  | fuel + 1, m =>
    if (usb_tx_next d m).1 = 0 then some (usb_tx_next d m).2
    else tx_run d fuel (usb_tx_next d m).2

/-! ## Concrete inputs -/

/-- A 32-bit target with 64-byte EP0 buffers. -/
def target32 : Target := { SIZE_BITS := 32, INT_BITS := 32, EP0_BUFSIZE := 64 }

/-- An idle pipe with the given maximum packet size. -/
def pipe0 (maxsize : Nat) : usbd_ep_pipe_state_t :=
  { pingpong := 0, data01 := 0, transfer_size := 0, pos := 0, data_buf := Ptr.NULL,
    short_transfer := 0, callback := none, callback_data := Ptr.NULL, ep_maxsize := maxsize }

/-- The device after reset: default state, idle control stage, empty log. -/
def machine0 (maxsize : Nat) : Machine :=
  { usb := { address := 0, config := 0, state := usbd_state.USBD_STATE_DEFAULT,
             ctrl_state := usbd_ctrl_state.USBD_CTRL_STATE_IDLE,
             ep0_state := { tx := pipe0 maxsize, rx := pipe0 maxsize },
             ep0_buf := [List.replicate 64 0, List.replicate 64 0] },
    log := [] }

/-- The chunk driver of `target32` whose hardware reports `n` received bytes. -/
def driver32 (n : Nat) : usb_driver := chunk_driver target32 (fun _ _ _ => n)

/-- The length the driver reports for the RX transaction that just
completed, as `usb_rx_next` reads it. -/
def rx_thislen (d : usb_driver) (m : Machine) : Nat :=
  d.usb_ep_get_transfer_size 0 usb_ep_dir.USB_EP_RX m.usb.ep0_state.rx.pingpong

/-! ## Definitions used to state the theorems -/

/-- A TX pipe with nothing left to send and callback 7 registered on the
buffer at address 1. -/
def pipe_done : usbd_ep_pipe_state_t :=
  { pipe0 8 with data_buf := Ptr.addr 1, callback := some 7, callback_data := Ptr.addr 2 }

/-- An RX pipe expecting 64 bytes in packets of 64, callback 9 registered. -/
def pipe_rx64 : usbd_ep_pipe_state_t :=
  { pipe0 64 with transfer_size := 64, data_buf := Ptr.addr 1, callback := some 9,
                  callback_data := Ptr.addr 2 }

/-- The callback event that ends a TX transfer on pipe `s`, if a callback
is registered. -/
def tx_done_events (s : usbd_ep_pipe_state_t) : List usb_event :=
  match s.callback with
  | none => []
  | some cb => [usb_event.callback cb s.data_buf 0 s.callback_data]

/-- The SETUP packet of a standard request with the given code and value. -/
def std_req (request value : Nat) : usb_ctrl_req_t :=
  { type := usb_ctrl_req_type.USB_CTRL_REQ_STD, request := request, value := value,
    index := 0, length := 0 }

/-- The addresses handed to `usb_set_addr`, in order, in a log. -/
def set_addrs : List usb_event → List Nat
  | [] => []
  | usb_event.set_addr a :: l => a :: set_addrs l
  | _ :: l => set_addrs l

/-- The pipe of an empty status transfer started on pipe `s`. -/
def status_pipe (s : usbd_ep_pipe_state_t) : usbd_ep_pipe_state_t :=
  { s with data_buf := Ptr.NULL, transfer_size := 0, pos := 0, short_transfer := 0,
           callback := none, callback_data := Ptr.NULL }

/-- The callback event that ends an RX transfer on pipe `s`, if a callback
is registered. -/
def rx_done_events (s : usbd_ep_pipe_state_t) : List usb_event :=
  match s.callback with
  | none => []
  | some cb => [usb_event.callback cb s.data_buf s.pos s.callback_data]

/-- The RX pipe `s` after `usb_rx_next` has accounted for `n` received
bytes. -/
def rx_accounted (t : Target) (n : Nat) (s : usbd_ep_pipe_state_t) : usbd_ep_pipe_state_t :=
  { s with data01 := s.data01 ^^^ 1, transfer_size := size_sub t s.transfer_size n,
           pos := size_add t s.pos n, pingpong := s.pingpong ^^^ 1 }

/-- The completion record of a SETUP transaction carrying `req`. -/
def setup_xfer (req : usb_ctrl_req_t) : usb_xfer_info :=
  { pid := usb_pid.USB_PID_SETUP, data := req }

/-- A standard SET_ADDRESS request with the given value, index and length
fields. -/
def set_address_req (v idx len : Nat) : usb_ctrl_req_t :=
  { type := usb_ctrl_req_type.USB_CTRL_REQ_STD, request := USB_CTRL_REQ_SET_ADDRESS,
    value := v, index := idx, length := len }

/-- An IN completion; the SETUP data it carries is not read. -/
def in_xfer : usb_xfer_info := { pid := usb_pid.USB_PID_IN, data := std_req 0 0 }

/-- The reset device with configuration 3 selected. -/
def machine_cfg3 : Machine :=
  { machine0 64 with usb := { (machine0 64).usb with
      config := 3, state := usbd_state.USBD_STATE_CONFIGURED } }

/-- The pipe `usb_tx(buf, len, reqlen, cb, cb_data)` hands to the driver
when it starts on TX pipe `s`. -/
def tx_pipe (s : usbd_ep_pipe_state_t) (buf : Ptr) (len reqlen : Nat) (cb : Option Nat)
    (cb_data : Ptr) : usbd_ep_pipe_state_t :=
  { s with data_buf := buf, transfer_size := min len reqlen, pos := 0,
           short_transfer := if reqlen > len then 1 else 0,
           callback := cb, callback_data := cb_data }

/-- The pipe `usb_tx_cp` starts on TX pipe `s` for `len` copied bytes. -/
def cp_pipe (s : usbd_ep_pipe_state_t) (len : Nat) : usbd_ep_pipe_state_t :=
  { s with data_buf := Ptr.ep0_buf s.pingpong, transfer_size := len, pos := 0,
           short_transfer := 0, callback := none, callback_data := Ptr.NULL }

/-- The deferred address commit of the "done with status" path:
`if (usb.state == USBD_STATE_SETTING_ADDRESS)` the state becomes ADDRESS and
`usb_set_addr(usb.address)` is called. -/
def commit_address (m : Machine) : Machine :=
  if m.usb.state = usbd_state.USBD_STATE_SETTING_ADDRESS then
    emit { m with usb := { m.usb with state := usbd_state.USBD_STATE_ADDRESS } }
      (usb_event.set_addr m.usb.address)
  else m

/-- The pipe `usb_setup_control` hands to the driver when the RX pipe is
`s`: ready for the next SETUP. -/
def setup_pipe (t : Target) (s : usbd_ep_pipe_state_t) : usbd_ep_pipe_state_t :=
  { s with data01 := USB_DATA01_DATA0, data_buf := Ptr.ep0_buf s.pingpong,
           transfer_size := t.EP0_BUFSIZE, pos := 0, callback := none,
           callback_data := Ptr.NULL }

/-- A standard SET_CONFIGURATION request with the given value, index and
length fields. -/
def set_configuration_req (v idx len : Nat) : usb_ctrl_req_t :=
  { type := usb_ctrl_req_type.USB_CTRL_REQ_STD, request := USB_CTRL_REQ_SET_CONFIGURATION,
    value := v, index := idx, length := len }

/-- A standard GET_CONFIGURATION request with the given value, index and
length fields. -/
def get_configuration_req (v idx len : Nat) : usb_ctrl_req_t :=
  { type := usb_ctrl_req_type.USB_CTRL_REQ_STD, request := USB_CTRL_REQ_GET_CONFIGURATION,
    value := v, index := idx, length := len }

/-- An RX pipe expecting 128 bytes in packets of 64, toggle DATA0. -/
def pipe_rx128 : usbd_ep_pipe_state_t :=
  { pipe0 64 with transfer_size := 128, data_buf := Ptr.addr 1 }

/-- An RX pipe expecting 10 bytes in packets of 64. -/
def pipe_rx10 : usbd_ep_pipe_state_t :=
  { pipe0 64 with transfer_size := 10, data_buf := Ptr.addr 1 }

/-! ## Arithmetic lemmas -/

theorem size_sub_exact (t : Target) (a b : Nat) (hb : b ≤ a) (ha : a < 2 ^ t.SIZE_BITS) :
    size_sub t a b = a - b := by
  unfold size_sub
  have hb2 : b < 2 ^ t.SIZE_BITS := lt_of_le_of_lt hb ha
  rw [Nat.mod_eq_of_lt hb2]
  have h1 : a + (2 ^ t.SIZE_BITS - b) = (a - b) + 2 ^ t.SIZE_BITS := by omega
  rw [h1, Nat.add_mod_right]
  exact Nat.mod_eq_of_lt (by omega)

theorem size_add_exact (t : Target) (a b : Nat) (h : a + b < 2 ^ t.SIZE_BITS) :
    size_add t a b = a + b := by
  unfold size_add
  exact Nat.mod_eq_of_lt h

/-! ## Unfolding lemmas -/

theorem usb_tx_next_more (d : usb_driver) (m : Machine)
    (h : 0 < m.usb.ep0_state.tx.transfer_size) :
    (usb_tx_next d m).1 = 1 ∧
    (usb_tx_next d m).2.log = m.log ++ [usb_event.tx_queue_next
      { m.usb.ep0_state.tx with data01 := m.usb.ep0_state.tx.data01 ^^^ 1 }] ∧
    (usb_tx_next d m).2.usb.ep0_state.tx = d.usb_tx_queue_next
      { m.usb.ep0_state.tx with data01 := m.usb.ep0_state.tx.data01 ^^^ 1 } := by
  simp [usb_tx_next, set_tx, tx_queue_next, emit, h]

theorem usb_tx_next_zero (d : usb_driver) (m : Machine)
    (hts : m.usb.ep0_state.tx.transfer_size = 0)
    (hsh : m.usb.ep0_state.tx.short_transfer = 0) :
    (usb_tx_next d m).1 = 0 := by
  simp [usb_tx_next, set_tx, hts, hsh]

theorem usb_tx_machine (t : Target) (d : usb_driver) (buf : Ptr) (len reqlen : Nat)
    (cb : Option Nat) (cb_data : Ptr) (m : Machine) :
    (usb_tx t d buf len reqlen cb cb_data m).2 =
      { usb := { m.usb with ep0_state := { m.usb.ep0_state with
                   tx := d.usb_tx_queue_next
                     (tx_pipe m.usb.ep0_state.tx buf len reqlen cb cb_data) } },
        log := m.log ++ [usb_event.tx_queue_next
                     (tx_pipe m.usb.ep0_state.tx buf len reqlen cb cb_data)] } := by
  have key : ∀ s : usbd_ep_pipe_state_t,
      (if (if len > reqlen then { s with transfer_size := reqlen }
            else { s with transfer_size := len }).transfer_size = reqlen
        then { (if len > reqlen then { s with transfer_size := reqlen }
            else { s with transfer_size := len }) with short_transfer := 0 }
        else { (if len > reqlen then { s with transfer_size := reqlen }
            else { s with transfer_size := len }) with short_transfer := 1 }) =
      { s with transfer_size := min len reqlen,
               short_transfer := if reqlen > len then 1 else 0 } := by
    intro s
    by_cases h1 : len > reqlen
    · have h2 : ¬ reqlen > len := by omega
      have h4 : min len reqlen = reqlen := by omega
      simp [h1, h2, h4]
    · by_cases h5 : len = reqlen
      · subst h5; simp
      · have h2 : reqlen > len := by omega
        have h4 : min len reqlen = len := by omega
        simp [h1, h2, h4, h5]
  have := key { m.usb.ep0_state.tx with data_buf := buf, pos := 0, callback := cb,
                                        callback_data := cb_data }
  simp only [usb_tx, tx_queue_next, emit, set_tx, tx_pipe]
  simp only [this]

theorem usb_tx_next_done (d : usb_driver) (m : Machine) (h : (usb_tx_next d m).1 = 0) :
    (usb_tx_next d m).2 =
      { usb := { m.usb with ep0_state := { m.usb.ep0_state with
                   tx := { m.usb.ep0_state.tx with data01 := m.usb.ep0_state.tx.data01 ^^^ 1 } } },
        log := m.log ++ tx_done_events m.usb.ep0_state.tx } := by
  unfold usb_tx_next at h ⊢
  by_cases h1 : 0 < m.usb.ep0_state.tx.transfer_size
  · simp [set_tx, h1] at h
  · by_cases h2 : m.usb.ep0_state.tx.short_transfer = 0
    · simp only [set_tx, gt_iff_lt, h1, if_false, h2, ne_eq, not_true_eq_false, run_callback,
        tx_done_events]
      cases m.usb.ep0_state.tx.callback <;> simp [emit]
    · simp [set_tx, h1, h2] at h

theorem usb_rx_next_done (t : Target) (d : usb_driver) (m : Machine)
    (h : (usb_rx_next t d m).1 = 0) :
    (usb_rx_next t d m).2 =
      { usb := { m.usb with ep0_state := { m.usb.ep0_state with
                   rx := rx_accounted t (rx_thislen d m) m.usb.ep0_state.rx } },
        log := m.log ++ rx_done_events (rx_accounted t (rx_thislen d m) m.usb.ep0_state.rx) } := by
  unfold usb_rx_next at h ⊢
  by_cases hc : d.usb_ep_get_transfer_size 0 usb_ep_dir.USB_EP_RX m.usb.ep0_state.rx.pingpong <
      m.usb.ep0_state.rx.ep_maxsize ∨
      size_sub t m.usb.ep0_state.rx.transfer_size
        (d.usb_ep_get_transfer_size 0 usb_ep_dir.USB_EP_RX m.usb.ep0_state.rx.pingpong) = 0
  · simp only [hc, if_true, run_callback, rx_done_events, rx_accounted, rx_thislen, set_rx]
    cases m.usb.ep0_state.rx.callback <;> simp [emit]
  · simp [hc] at h

/-! ## The transfer queuer: theorems -/

/-- C1: `usb_tx_next` has three outcomes.  With data left it arms one
transaction and returns 1, without a callback.  With no data left and a
short transfer pending it clears the flag, arms one transaction and returns
1, without a callback.  Otherwise it arms nothing, invokes the registered
callback once with `(data_buf, 0, callback_data)` and returns 0.  A callback
event is only added when `short_transfer` is clear. -/
theorem usb_tx_next_outcomes (d : usb_driver) (m : Machine) :
    (0 < m.usb.ep0_state.tx.transfer_size →
      (usb_tx_next d m).1 = 1 ∧
      (usb_tx_next d m).2.log = m.log ++ [usb_event.tx_queue_next
        { m.usb.ep0_state.tx with data01 := m.usb.ep0_state.tx.data01 ^^^ 1 }] ∧
      (usb_tx_next d m).2.usb.ep0_state.tx = d.usb_tx_queue_next
        { m.usb.ep0_state.tx with data01 := m.usb.ep0_state.tx.data01 ^^^ 1 }) ∧
    (m.usb.ep0_state.tx.transfer_size = 0 → m.usb.ep0_state.tx.short_transfer ≠ 0 →
      (usb_tx_next d m).1 = 1 ∧
      (usb_tx_next d m).2.log = m.log ++ [usb_event.tx_queue_next
        { m.usb.ep0_state.tx with data01 := m.usb.ep0_state.tx.data01 ^^^ 1,
                                  short_transfer := 0 }] ∧
      (usb_tx_next d m).2.usb.ep0_state.tx = d.usb_tx_queue_next
        { m.usb.ep0_state.tx with data01 := m.usb.ep0_state.tx.data01 ^^^ 1,
                                  short_transfer := 0 }) ∧
    (m.usb.ep0_state.tx.transfer_size = 0 → m.usb.ep0_state.tx.short_transfer = 0 →
      (usb_tx_next d m).1 = 0 ∧
      (usb_tx_next d m).2.usb.ep0_state.tx =
        { m.usb.ep0_state.tx with data01 := m.usb.ep0_state.tx.data01 ^^^ 1 } ∧
      (m.usb.ep0_state.tx.callback = none → (usb_tx_next d m).2.log = m.log) ∧
      (∀ cb, m.usb.ep0_state.tx.callback = some cb →
        (usb_tx_next d m).2.log = m.log ++ [usb_event.callback cb
          m.usb.ep0_state.tx.data_buf 0 m.usb.ep0_state.tx.callback_data])) ∧
    (∀ cb buf len data,
      usb_event.callback cb buf len data ∈ (usb_tx_next d m).2.log.drop m.log.length →
        m.usb.ep0_state.tx.short_transfer = 0 ∧
        (usb_tx_next d m).2.usb.ep0_state.tx.short_transfer = 0) := by
  refine ⟨?_, ?_, ?_, ?_⟩
  · intro h
    simp [usb_tx_next, set_tx, tx_queue_next, emit, h]
  · intro h hs
    simp [usb_tx_next, set_tx, tx_queue_next, emit, h, hs]
  · intro h hs
    refine ⟨?_, ?_, ?_, ?_⟩
    · simp [usb_tx_next, set_tx, h, hs]
    · simp [usb_tx_next, set_tx, h, hs, run_callback]
      cases hc : m.usb.ep0_state.tx.callback <;> simp [emit]
    · intro hc
      simp [usb_tx_next, set_tx, h, hs, run_callback, hc]
    · intro cb hc
      simp [usb_tx_next, set_tx, h, hs, run_callback, hc, emit]
  · intro cb buf len data
    unfold usb_tx_next
    by_cases h : 0 < m.usb.ep0_state.tx.transfer_size
    · simp [set_tx, tx_queue_next, emit, h]
    · by_cases hs : m.usb.ep0_state.tx.short_transfer = 0
      · simp [set_tx, h, hs, run_callback]
        cases hc : m.usb.ep0_state.tx.callback <;> simp [emit]
      · simp [set_tx, tx_queue_next, emit, h, hs]

/-- Witness of C1 in the completion outcome: the callback 7 is invoked once
with length 0 and the call returns 0. -/
theorem usb_tx_next_outcomes_witness :
    (usb_tx_next (driver32 0) (set_tx (machine0 8) pipe_done)).1 = 0 ∧
    (usb_tx_next (driver32 0) (set_tx (machine0 8) pipe_done)).2.log =
      [usb_event.callback 7 (Ptr.addr 1) 0 (Ptr.addr 2)] :=
  ⟨((usb_tx_next_outcomes (driver32 0) (set_tx (machine0 8) pipe_done)).2.2.1 rfl rfl).1,
   ((usb_tx_next_outcomes (driver32 0) (set_tx (machine0 8) pipe_done)).2.2.1 rfl rfl).2.2.2
      7 rfl⟩

/-- C2: `usb_rx_next` moves the reported length `n` from `transfer_size` to
`pos` (in `size_t` arithmetic, exact when nothing wraps), returns 0 exactly
when `n < ep_maxsize` or the new `transfer_size` is 0, and 1 otherwise.
Returning 0 it arms nothing and invokes the registered callback once with
`(data_buf, new pos, callback_data)`; returning 1 it arms one RX transaction
and invokes no callback.  A chunk shorter than `ep_maxsize` completes the
transfer. -/
theorem usb_rx_next_outcomes (t : Target) (d : usb_driver) (m : Machine) :
    ((usb_rx_next t d m).1 = 0 ∨ (usb_rx_next t d m).1 = 1) ∧
    ((usb_rx_next t d m).1 = 0 ↔
      (rx_thislen d m < m.usb.ep0_state.rx.ep_maxsize ∨
        size_sub t m.usb.ep0_state.rx.transfer_size (rx_thislen d m) = 0)) ∧
    ((usb_rx_next t d m).1 = 0 →
      (usb_rx_next t d m).2.usb.ep0_state.rx.transfer_size =
        size_sub t m.usb.ep0_state.rx.transfer_size (rx_thislen d m) ∧
      (usb_rx_next t d m).2.usb.ep0_state.rx.pos =
        size_add t m.usb.ep0_state.rx.pos (rx_thislen d m) ∧
      (m.usb.ep0_state.rx.callback = none → (usb_rx_next t d m).2.log = m.log) ∧
      (∀ cb, m.usb.ep0_state.rx.callback = some cb →
        (usb_rx_next t d m).2.log = m.log ++ [usb_event.callback cb
          m.usb.ep0_state.rx.data_buf (size_add t m.usb.ep0_state.rx.pos (rx_thislen d m))
          m.usb.ep0_state.rx.callback_data])) ∧
    ((usb_rx_next t d m).1 = 1 →
      (usb_rx_next t d m).2.log = m.log ++ [usb_event.rx_queue_next
        { m.usb.ep0_state.rx with
          data01 := m.usb.ep0_state.rx.data01 ^^^ 1,
          transfer_size := size_sub t m.usb.ep0_state.rx.transfer_size (rx_thislen d m),
          pos := size_add t m.usb.ep0_state.rx.pos (rx_thislen d m),
          pingpong := m.usb.ep0_state.rx.pingpong ^^^ 1 }] ∧
      (usb_rx_next t d m).2.usb.ep0_state.rx = d.usb_rx_queue_next
        { m.usb.ep0_state.rx with
          data01 := m.usb.ep0_state.rx.data01 ^^^ 1,
          transfer_size := size_sub t m.usb.ep0_state.rx.transfer_size (rx_thislen d m),
          pos := size_add t m.usb.ep0_state.rx.pos (rx_thislen d m),
          pingpong := m.usb.ep0_state.rx.pingpong ^^^ 1 }) ∧
    (rx_thislen d m < m.usb.ep0_state.rx.ep_maxsize → (usb_rx_next t d m).1 = 0) ∧
    (rx_thislen d m ≤ m.usb.ep0_state.rx.transfer_size →
      m.usb.ep0_state.rx.transfer_size < 2 ^ t.SIZE_BITS →
      size_sub t m.usb.ep0_state.rx.transfer_size (rx_thislen d m) =
        m.usb.ep0_state.rx.transfer_size - rx_thislen d m) ∧
    (m.usb.ep0_state.rx.pos + rx_thislen d m < 2 ^ t.SIZE_BITS →
      size_add t m.usb.ep0_state.rx.pos (rx_thislen d m) =
        m.usb.ep0_state.rx.pos + rx_thislen d m) := by
  by_cases hc : rx_thislen d m < m.usb.ep0_state.rx.ep_maxsize ∨
      size_sub t m.usb.ep0_state.rx.transfer_size (rx_thislen d m) = 0
  · have hc2 := hc
    unfold rx_thislen at hc2
    refine ⟨?_, ?_, ?_, ?_, ?_, ?_, ?_⟩
    · left; simp [usb_rx_next, hc2]
    · simp [usb_rx_next, hc2, hc]
    · intro _
      refine ⟨?_, ?_, ?_, ?_⟩
      · simp only [usb_rx_next, hc2, if_true, run_callback, rx_thislen]
        cases hcb : m.usb.ep0_state.rx.callback <;> simp [emit, set_rx]
      · simp only [usb_rx_next, hc2, if_true, run_callback, rx_thislen]
        cases hcb : m.usb.ep0_state.rx.callback <;> simp [emit, set_rx]
      · intro hcb
        simp [usb_rx_next, hc2, run_callback, hcb, set_rx]
      · intro cb hcb
        simp [usb_rx_next, hc2, run_callback, hcb, set_rx, emit, rx_thislen]
    · intro h1
      simp [usb_rx_next, hc2] at h1
    · intro _
      simp [usb_rx_next, hc2]
    · intro h1 h2
      exact size_sub_exact t _ _ h1 h2
    · intro h1
      exact size_add_exact t _ _ h1
  · have hc2 := hc
    unfold rx_thislen at hc2
    refine ⟨?_, ?_, ?_, ?_, ?_, ?_, ?_⟩
    · right; simp [usb_rx_next, hc2]
    · simp [usb_rx_next, hc2, hc]
    · intro h0
      simp [usb_rx_next, hc2] at h0
    · intro _
      refine ⟨?_, ?_⟩
      · simp [usb_rx_next, hc2, rx_queue_next, emit, set_rx, rx_thislen]
      · simp [usb_rx_next, hc2, rx_queue_next, emit, set_rx, rx_thislen]
    · intro h1
      exact absurd (Or.inl h1) hc
    · intro h1 h2
      exact size_sub_exact t _ _ h1 h2
    · intro h1
      exact size_add_exact t _ _ h1

/-- Witness of C2: a first chunk of 8 bytes on a pipe with 64-byte packets
completes the transfer, the callback gets the 8 bytes received. -/
theorem usb_rx_next_outcomes_witness :
    (usb_rx_next target32 (driver32 8) (set_rx (machine0 64) pipe_rx64)).1 = 0 ∧
    (usb_rx_next target32 (driver32 8) (set_rx (machine0 64) pipe_rx64)).2.log =
      [usb_event.callback 9 (Ptr.addr 1) 8 (Ptr.addr 2)] :=
  have h := usb_rx_next_outcomes target32 (driver32 8) (set_rx (machine0 64) pipe_rx64)
  ⟨h.2.2.2.2.1 (by decide), ((h.2.2.1 (h.2.2.2.2.1 (by decide))).2.2.2 9 rfl).trans (by decide)⟩

/-- C3: `usb_tx(buf, len, reqlen, cb, cb_data)` hands one pipe to the driver,
and that pipe has `data_buf = buf`, `pos = 0`, `callback = cb`,
`callback_data = cb_data`, `transfer_size = min(len, reqlen)` and
`short_transfer = 1` exactly when `reqlen > len`, `0` otherwise; toggle,
pingpong and packet size are untouched. -/
theorem usb_tx_setup (t : Target) (d : usb_driver) (buf : Ptr) (len reqlen : Nat)
    (cb : Option Nat) (cb_data : Ptr) (m : Machine) :
    ∃ p : usbd_ep_pipe_state_t,
      (usb_tx t d buf len reqlen cb cb_data m).2.log = m.log ++ [usb_event.tx_queue_next p] ∧
      (usb_tx t d buf len reqlen cb cb_data m).2.usb.ep0_state.tx = d.usb_tx_queue_next p ∧
      p.data_buf = buf ∧ p.pos = 0 ∧ p.callback = cb ∧ p.callback_data = cb_data ∧
      p.transfer_size = min len reqlen ∧
      (p.short_transfer = 1 ↔ reqlen > len) ∧
      (p.short_transfer = 0 ↔ reqlen ≤ len) ∧
      p.data01 = m.usb.ep0_state.tx.data01 ∧ p.pingpong = m.usb.ep0_state.tx.pingpong ∧
      p.ep_maxsize = m.usb.ep0_state.tx.ep_maxsize := by
  by_cases h1 : len > reqlen
  · have h2 : ¬ reqlen > len := by omega
    have h3 : reqlen ≤ len := by omega
    have h4 : min len reqlen = reqlen := by omega
    refine ⟨_, ?_, rfl, ?_⟩
    · simp only [usb_tx, tx_queue_next, emit, set_tx]
    · simp [set_tx, h1, h2, h3, h4]
  · by_cases h5 : len = reqlen
    · subst h5
      refine ⟨_, ?_, rfl, ?_⟩
      · simp only [usb_tx, tx_queue_next, emit, set_tx]
      · simp [set_tx]
    · have h2 : reqlen > len := by omega
      have h3 : ¬ reqlen ≤ len := by omega
      have h4 : min len reqlen = len := by omega
      refine ⟨_, ?_, rfl, ?_⟩
      · simp only [usb_tx, tx_queue_next, emit, set_tx]
      · simp [set_tx, h1, h2, h3, h4, h5]

/-- Witness of C3 with more requested than available: 8 bytes for a request
of 64 are armed as a short transfer of 8 bytes. -/
theorem usb_tx_setup_witness :
    (usb_tx target32 (driver32 0) (Ptr.addr 1) 8 64 (some 7) (Ptr.addr 2) (machine0 8)).2.log =
      [usb_event.tx_queue_next
        { pipe0 8 with data_buf := Ptr.addr 1, transfer_size := 8, short_transfer := 1,
                       callback := some 7, callback_data := Ptr.addr 2 }] := by
  obtain ⟨p, h1, -, h3, h4, h5, h6, h7, h8, -, h10, h11, h12⟩ :=
    usb_tx_setup target32 (driver32 0) (Ptr.addr 1) 8 64 (some 7) (Ptr.addr 2) (machine0 8)
  rw [h1]
  have hs : p.short_transfer = 1 := h8.2 (by decide)
  cases p
  simp_all [machine0, pipe0]

/-! ## A whole TX transfer on the chunk driver -/

theorem tx_arms_append (l1 l2 : List usb_event) :
    tx_arms (l1 ++ l2) = tx_arms l1 ++ tx_arms l2 := by
  induction l1 with
  | nil => rfl
  | cons e l ih => cases e <;> simp [tx_arms, ih]

theorem tx_arms_map (pipes : List usbd_ep_pipe_state_t) :
    tx_arms (pipes.map usb_event.tx_queue_next) = pipes := by
  induction pipes with
  | nil => rfl
  | cons q l ih => simp [tx_arms, ih]

theorem tx_arms_done (s : usbd_ep_pipe_state_t) : tx_arms (tx_done_events s) = [] := by
  unfold tx_done_events
  cases s.callback <;> rfl

theorem tx_run_chunks (t : Target) (rxlen : Nat → usb_ep_dir → Nat → Nat) (mx : Nat)
    (hmx : 0 < mx) :
    ∀ (j fuel : Nat) (m : Machine),
      m.usb.ep0_state.tx.transfer_size = j * mx →
      m.usb.ep0_state.tx.short_transfer = 0 →
      m.usb.ep0_state.tx.ep_maxsize = mx →
      j + 1 ≤ fuel →
      ∃ (m' : Machine) (pipes : List usbd_ep_pipe_state_t),
        tx_run (chunk_driver t rxlen) fuel m = some m' ∧
        m'.log = m.log ++ pipes.map usb_event.tx_queue_next ++
          tx_done_events m.usb.ep0_state.tx ∧
        pipes.map chunk_len = List.replicate j mx := by
  intro j
  induction j with
  | zero =>
    intro fuel m hts hs _ hf
    obtain ⟨f, rfl⟩ : ∃ f, fuel = f + 1 := ⟨fuel - 1, by omega⟩
    have hts0 : m.usb.ep0_state.tx.transfer_size = 0 := by simpa using hts
    have h0 := usb_tx_next_zero (chunk_driver t rxlen) m hts0 hs
    refine ⟨(usb_tx_next (chunk_driver t rxlen) m).2, [], ?_, ?_, rfl⟩
    · simp [tx_run, h0]
    · rw [usb_tx_next_done (chunk_driver t rxlen) m h0]
      simp
  | succ j ih =>
    intro fuel m hts hs hm hf
    obtain ⟨f, rfl⟩ : ∃ f, fuel = f + 1 := ⟨fuel - 1, by omega⟩
    have hpos : 0 < m.usb.ep0_state.tx.transfer_size := by
      rw [hts]; exact Nat.mul_pos (Nat.succ_pos j) hmx
    have h := usb_tx_next_more (chunk_driver t rxlen) m hpos
    have hle : mx ≤ (j + 1) * mx := Nat.le_mul_of_pos_left mx (Nat.succ_pos j)
    have hsub : (j + 1) * mx - mx = j * mx := by
      rw [Nat.add_mul, Nat.one_mul, Nat.add_sub_cancel]
    have hmin : min ((j + 1) * mx) mx = mx := Nat.min_eq_right hle
    obtain ⟨m', pipes, hrun, hlog, hlen⟩ :=
      ih f (usb_tx_next (chunk_driver t rxlen) m).2
        (by rw [h.2.2]; simp [chunk_driver, chunk_tx_queue_next, hts, hm, hmin, hsub])
        (by rw [h.2.2]; simp [chunk_driver, chunk_tx_queue_next, hs])
        (by rw [h.2.2]; simp [chunk_driver, chunk_tx_queue_next, hm])
        (by omega)
    refine ⟨m', { m.usb.ep0_state.tx with data01 := m.usb.ep0_state.tx.data01 ^^^ 1 } :: pipes,
      ?_, ?_, ?_⟩
    · simp [tx_run, h.1, hrun]
    · rw [hlog, h.2.1, h.2.2]
      simp [tx_done_events, chunk_driver, chunk_tx_queue_next]
    · simp [hlen, chunk_len, hts, hm, hmin, List.replicate_succ]

/-- C4, counterexample: a transfer of 8 bytes with 8 requested on a pipe
with 8-byte packets arms one transaction of 8 bytes and then invokes the
callback; it arms neither 8/8 + 1 transactions nor a zero-length one. -/
theorem usb_tx_exact_multiple_counterexample :
    ∃ m' : Machine,
      tx_run (driver32 0) 2
        (usb_tx target32 (driver32 0) (Ptr.addr 1) 8 8 (some 7) (Ptr.addr 2) (machine0 8)).2
        = some m' ∧
      m'.log =
        [usb_event.tx_queue_next
          { pipe0 8 with data_buf := Ptr.addr 1, transfer_size := 8, callback := some 7,
                         callback_data := Ptr.addr 2 },
         usb_event.callback 7 (Ptr.addr 1) 0 (Ptr.addr 2)] ∧
      (tx_arms m'.log).map chunk_len = [8] ∧
      (tx_arms m'.log).length ≠ 8 / 8 + 1 :=
  ⟨_, rfl, by decide, by decide, by decide⟩

/-- C4, amended: on the chunk driver with `ep_maxsize = mx > 0`, the transfer
`usb_tx(buf, n, n, cb, d)` with `n = k * mx`, followed by `usb_tx_next` once
per completed transaction until it returns 0, terminates within `max k 1`
completions and arms exactly `max k 1` transactions before the callback:
`k` transactions of `mx` bytes each when `n > 0`, none of them zero-length,
and a single zero-length transaction when `n = 0`. -/
theorem usb_tx_exact_multiple_arms (t : Target) (rxlen : Nat → usb_ep_dir → Nat → Nat)
    (mx k : Nat) (buf : Ptr) (cb : Option Nat) (cb_data : Ptr) (m : Machine) (fuel : Nat)
    (hmx : 0 < mx) (hm : m.usb.ep0_state.tx.ep_maxsize = mx) (hf : max k 1 ≤ fuel) :
    ∃ (m' : Machine) (pipes : List usbd_ep_pipe_state_t),
      tx_run (chunk_driver t rxlen) fuel
        (usb_tx t (chunk_driver t rxlen) buf (k * mx) (k * mx) cb cb_data m).2 = some m' ∧
      m'.log = m.log ++ pipes.map usb_event.tx_queue_next ++
        (match cb with
         | none => []
         | some c => [usb_event.callback c buf 0 cb_data]) ∧
      tx_arms m'.log = tx_arms m.log ++ pipes ∧
      pipes.length = max k 1 ∧
      pipes.map chunk_len = (if k = 0 then [0] else List.replicate k mx) := by
  have hdone0 : ∀ q : usbd_ep_pipe_state_t, q.callback = cb → q.data_buf = buf →
      q.callback_data = cb_data →
      tx_done_events ((chunk_driver t rxlen).usb_tx_queue_next q) =
      (match cb with
       | none => []
       | some c => [usb_event.callback c buf 0 cb_data]) := by
    intro q h1 h2 h3
    simp [tx_done_events, chunk_driver, chunk_tx_queue_next, h1, h2, h3]
  have hmach := usb_tx_machine t (chunk_driver t rxlen) buf (k * mx) (k * mx) cb cb_data m
  have hlog : (usb_tx t (chunk_driver t rxlen) buf (k * mx) (k * mx) cb cb_data m).2.log =
      m.log ++ [usb_event.tx_queue_next
        (tx_pipe m.usb.ep0_state.tx buf (k * mx) (k * mx) cb cb_data)] := by rw [hmach]
  have htx : (usb_tx t (chunk_driver t rxlen) buf (k * mx) (k * mx) cb cb_data
      m).2.usb.ep0_state.tx = (chunk_driver t rxlen).usb_tx_queue_next
        (tx_pipe m.usb.ep0_state.tx buf (k * mx) (k * mx) cb cb_data) := by rw [hmach]
  generalize hp : tx_pipe m.usb.ep0_state.tx buf (k * mx) (k * mx) cb cb_data = p at hlog htx
  have hshort : p.short_transfer = 0 := by rw [← hp]; simp [tx_pipe]
  have hpm : p.ep_maxsize = mx := by rw [← hp]; simp [tx_pipe, hm]
  have hpt : p.transfer_size = k * mx := by rw [← hp]; simp [tx_pipe]
  have hdone := hdone0 p (by rw [← hp]; rfl) (by rw [← hp]; rfl) (by rw [← hp]; rfl)
  rw [← htx] at hdone
  clear hmach hp
  cases k with
  | zero =>
    obtain ⟨m', pipes, hrun, hl, hlen⟩ :=
      tx_run_chunks t rxlen mx hmx 0 fuel
        (usb_tx t (chunk_driver t rxlen) buf (0 * mx) (0 * mx) cb cb_data m).2
        (by rw [htx]; simp [chunk_driver, chunk_tx_queue_next, hpt])
        (by rw [htx]; simp [chunk_driver, chunk_tx_queue_next, hshort])
        (by rw [htx]; simp [chunk_driver, chunk_tx_queue_next, hpm])
        (by simpa using hf)
    have hnil : pipes = [] := by simpa using hlen
    subst hnil
    refine ⟨m', [p], hrun, ?_, ?_, by simp, ?_⟩
    · rw [hl, hlog, hdone]; simp
    · rw [hl, hlog, hdone]
      cases cb <;> simp [tx_arms_append, tx_arms]
    · simp [chunk_len, hpt]
  | succ j =>
    have hle : mx ≤ (j + 1) * mx := Nat.le_mul_of_pos_left mx (Nat.succ_pos j)
    have hsub : (j + 1) * mx - mx = j * mx := by
      rw [Nat.add_mul, Nat.one_mul, Nat.add_sub_cancel]
    have hmin : min ((j + 1) * mx) mx = mx := Nat.min_eq_right hle
    obtain ⟨m', pipes, hrun, hl, hlen⟩ :=
      tx_run_chunks t rxlen mx hmx j fuel
        (usb_tx t (chunk_driver t rxlen) buf ((j + 1) * mx) ((j + 1) * mx) cb cb_data m).2
        (by rw [htx]; simp [chunk_driver, chunk_tx_queue_next, hpt, hpm, hmin, hsub])
        (by rw [htx]; simp [chunk_driver, chunk_tx_queue_next, hshort])
        (by rw [htx]; simp [chunk_driver, chunk_tx_queue_next, hpm])
        (by simpa using hf)
    have hplen : pipes.length = j := by
      have := congrArg List.length hlen
      simpa using this
    refine ⟨m', p :: pipes, hrun, ?_, ?_, by simp [hplen], ?_⟩
    · rw [hl, hlog, hdone]; simp
    · rw [hl, hlog, hdone]
      cases cb <;> simp [tx_arms_append, tx_arms, tx_arms_map]
    · simp [chunk_len, hpt, hpm, hmin, hlen, List.replicate_succ]

/-- Witness of the amended C4: 16 bytes in 8-byte packets are two
transactions of 8 bytes, then the callback. -/
theorem usb_tx_exact_multiple_arms_witness :
    ∃ (m' : Machine) (pipes : List usbd_ep_pipe_state_t),
      tx_run (chunk_driver target32 (fun _ _ _ => 0)) 2
        (usb_tx target32 (chunk_driver target32 (fun _ _ _ => 0)) (Ptr.addr 1) (2 * 8) (2 * 8)
          (some 7) (Ptr.addr 2) (machine0 8)).2 = some m' ∧
      m'.log = (machine0 8).log ++ pipes.map usb_event.tx_queue_next ++
        [usb_event.callback 7 (Ptr.addr 1) 0 (Ptr.addr 2)] ∧
      tx_arms m'.log = tx_arms (machine0 8).log ++ pipes ∧
      pipes.length = max 2 1 ∧
      pipes.map chunk_len = (if 2 = 0 then [0] else List.replicate 2 8) :=
  usb_tx_exact_multiple_arms target32 (fun _ _ _ => 0) 8 2 (Ptr.addr 1) (some 7) (Ptr.addr 2)
    (machine0 8) 2 (by decide) rfl (by decide)

/-! ## The dispatcher: theorems -/

theorem size_to_int_small (t : Target) (v : Nat) (hv : v ≤ 2) (hint : 3 ≤ t.INT_BITS) :
    size_to_int t v = (v : Int) := by
  obtain ⟨b, hb⟩ : ∃ b, t.INT_BITS = b + 3 := ⟨t.INT_BITS - 3, by omega⟩
  have h1 : 2 ^ t.INT_BITS = 8 * 2 ^ b := by rw [hb, pow_add]; ring
  have h2 : 2 ^ (t.INT_BITS - 1) = 4 * 2 ^ b := by
    have : t.INT_BITS - 1 = b + 2 := by omega
    rw [this, pow_add]; ring
  have h3 : 0 < 2 ^ b := Nat.two_pow_pos b
  have h4 : v % 2 ^ t.INT_BITS = v := Nat.mod_eq_of_lt (by omega)
  unfold size_to_int
  rw [h4, if_pos (by omega)]

theorem usb_tx_result (t : Target) (d : usb_driver) (buf : Ptr) (len reqlen : Nat)
    (cb : Option Nat) (cb_data : Ptr) (m : Machine) :
    (usb_tx t d buf len reqlen cb cb_data m).1 =
      size_to_int t (usb_tx t d buf len reqlen cb cb_data m).2.usb.ep0_state.tx.transfer_size := by
  rfl

theorem usb_tx_cp_nonneg (t : Target) (d : usb_driver) (buf : List Nat) (len : Nat)
    (m : Machine) (hlen : len ≤ 2) (hbuf : len ≤ t.EP0_BUFSIZE) (hint : 3 ≤ t.INT_BITS)
    (hd : ∀ s, (d.usb_tx_queue_next s).transfer_size ≤ s.transfer_size) :
    0 ≤ (usb_tx_cp t d buf len m).1 := by
  unfold usb_tx_cp
  simp only [gt_iff_lt, Nat.not_lt.mpr hbuf, if_false]
  rw [usb_tx_result, usb_tx_machine]
  have h1 : (d.usb_tx_queue_next (tx_pipe m.usb.ep0_state.tx
      (Ptr.ep0_buf m.usb.ep0_state.tx.pingpong) len len none Ptr.NULL)).transfer_size ≤ 2 := by
    have hle := hd (tx_pipe m.usb.ep0_state.tx (Ptr.ep0_buf m.usb.ep0_state.tx.pingpong) len len
      none Ptr.NULL)
    have hts : (tx_pipe m.usb.ep0_state.tx (Ptr.ep0_buf m.usb.ep0_state.tx.pingpong) len len
        none Ptr.NULL).transfer_size = len := by simp [tx_pipe]
    rw [hts] at hle
    omega
  simp only []
  rw [size_to_int_small t _ h1 hint]
  exact Int.natCast_nonneg _

/-- C5: with `EP0_BUFSIZE >= 2`, on a target whose `int` has at least 3 bits
and a driver whose arm never increases `transfer_size`, `usb_handle_control`
returns -1 exactly when the request type is not the standard one, or the
request is SET_INTERFACE, or the request is none of the eight other codes
it knows; and when it returns -1 the machine, log included, is unchanged. -/
theorem usb_handle_control_error (t : Target) (d : usb_driver) (req : usb_ctrl_req_t)
    (m : Machine) (hbuf : 2 ≤ t.EP0_BUFSIZE) (hint : 3 ≤ t.INT_BITS)
    (hd : ∀ s, (d.usb_tx_queue_next s).transfer_size ≤ s.transfer_size) :
    ((usb_handle_control t d req m).1 = -1 ↔
      (req.type ≠ usb_ctrl_req_type.USB_CTRL_REQ_STD ∨
       req.request = USB_CTRL_REQ_SET_INTERFACE ∨
       (req.request ≠ USB_CTRL_REQ_GET_STATUS ∧ req.request ≠ USB_CTRL_REQ_CLEAR_FEATURE ∧
        req.request ≠ USB_CTRL_REQ_SET_FEATURE ∧ req.request ≠ USB_CTRL_REQ_SET_ADDRESS ∧
        req.request ≠ USB_CTRL_REQ_GET_DESCRIPTOR ∧
        req.request ≠ USB_CTRL_REQ_GET_CONFIGURATION ∧
        req.request ≠ USB_CTRL_REQ_SET_CONFIGURATION ∧
        req.request ≠ USB_CTRL_REQ_GET_INTERFACE))) ∧
    ((usb_handle_control t d req m).1 = -1 → (usb_handle_control t d req m).2 = m) := by
  have hcp : ∀ (buf : List Nat) (len : Nat), len ≤ 2 → (usb_tx_cp t d buf len m).1 ≠ -1 := by
    intro buf len hl
    have := usb_tx_cp_nonneg t d buf len m hl (by omega) hint hd
    omega
  have h2 := hcp [0, 0] 2 (le_refl _)
  have h1 := hcp [0, 0] 1 (by decide)
  have hc := hcp [m.usb.config] 1 (by decide)
  unfold usb_handle_control
  by_cases ht : req.type = usb_ctrl_req_type.USB_CTRL_REQ_STD
  · simp only [ht, ne_eq, not_true_eq_false, if_false, false_or, USB_CTRL_REQ_GET_STATUS,
      USB_CTRL_REQ_CLEAR_FEATURE, USB_CTRL_REQ_SET_FEATURE, USB_CTRL_REQ_SET_ADDRESS,
      USB_CTRL_REQ_GET_DESCRIPTOR, USB_CTRL_REQ_GET_CONFIGURATION,
      USB_CTRL_REQ_SET_CONFIGURATION, USB_CTRL_REQ_GET_INTERFACE, USB_CTRL_REQ_SET_INTERFACE]
    split_ifs with a1 a2 a3 a4 a5 a6 a7 a8
    all_goals simp_all
    all_goals omega
  · simp [ht]

theorem chunk_driver_le (t : Target) (rxlen : Nat → usb_ep_dir → Nat → Nat)
    (s : usbd_ep_pipe_state_t) :
    ((chunk_driver t rxlen).usb_tx_queue_next s).transfer_size ≤ s.transfer_size := by
  simp [chunk_driver, chunk_tx_queue_next]

/-- Witness of C5: SET_INTERFACE on the reset device returns -1 and changes
nothing. -/
theorem usb_handle_control_error_witness :
    (usb_handle_control target32 (driver32 0) (std_req USB_CTRL_REQ_SET_INTERFACE 1)
      (machine0 64)).1 = -1 ∧
    (usb_handle_control target32 (driver32 0) (std_req USB_CTRL_REQ_SET_INTERFACE 1)
      (machine0 64)).2 = machine0 64 :=
  have h := usb_handle_control_error target32 (driver32 0)
    (std_req USB_CTRL_REQ_SET_INTERFACE 1) (machine0 64) (by decide) (by decide)
    (chunk_driver_le target32 (fun _ _ _ => 0))
  ⟨h.1.2 (Or.inr (Or.inl rfl)), h.2 (h.1.2 (Or.inr (Or.inl rfl)))⟩

/-! ## The control endpoint state machine: theorems -/

theorem set_addrs_append (l1 l2 : List usb_event) :
    set_addrs (l1 ++ l2) = set_addrs l1 ++ set_addrs l2 := by
  induction l1 with
  | nil => rfl
  | cons e l ih => cases e <;> simp [set_addrs, ih]

theorem set_addrs_done (s : usbd_ep_pipe_state_t) : set_addrs (tx_done_events s) = [] := by
  unfold tx_done_events
  cases s.callback <;> rfl

theorem usb_tx_status (t : Target) (d : usb_driver) (m : Machine) :
    (usb_tx t d Ptr.NULL 0 0 none Ptr.NULL m).2 =
      { usb := { m.usb with ep0_state := { m.usb.ep0_state with
                   tx := d.usb_tx_queue_next (status_pipe m.usb.ep0_state.tx) } },
        log := m.log ++ [usb_event.tx_queue_next (status_pipe m.usb.ep0_state.tx)] } := by
  simp [usb_tx, tx_queue_next, emit, set_tx, status_pipe]

theorem usb_rx_machine (t : Target) (d : usb_driver) (buf : Ptr) (len : Nat)
    (cb : Option Nat) (cb_data : Ptr) (m : Machine) :
    (usb_rx t d buf len cb cb_data m).2 =
      { usb := { m.usb with ep0_state := { m.usb.ep0_state with
                   rx := d.usb_rx_queue_next
                     { m.usb.ep0_state.rx with data_buf := buf, transfer_size := len, pos := 0,
                                               callback := cb, callback_data := cb_data } } },
        log := m.log ++ [usb_event.rx_queue_next
                     { m.usb.ep0_state.rx with data_buf := buf, transfer_size := len, pos := 0,
                                               callback := cb, callback_data := cb_data }] } := by
  simp [usb_rx, rx_queue_next, emit, set_rx]

theorem usb_setup_control_machine (t : Target) (d : usb_driver) (m : Machine) :
    usb_setup_control t d m =
      { usb := { m.usb with ep0_state :=
                   { tx := { m.usb.ep0_state.tx with data01 := USB_DATA01_DATA1 }
                     rx := d.usb_rx_queue_next
                       { m.usb.ep0_state.rx with
                         data01 := USB_DATA01_DATA0,
                         data_buf := Ptr.ep0_buf m.usb.ep0_state.rx.pingpong,
                         transfer_size := t.EP0_BUFSIZE, pos := 0,
                         callback := none, callback_data := Ptr.NULL } } },
        log := m.log ++ [usb_event.rx_queue_next
                       { m.usb.ep0_state.rx with
                         data01 := USB_DATA01_DATA0,
                         data_buf := Ptr.ep0_buf m.usb.ep0_state.rx.pingpong,
                         transfer_size := t.EP0_BUFSIZE, pos := 0,
                         callback := none, callback_data := Ptr.NULL }] } := by
  simp [usb_setup_control, usb_rx_machine, set_rx, set_tx]

theorem rx_arms_append (l1 l2 : List usb_event) :
    rx_arms (l1 ++ l2) = rx_arms l1 ++ rx_arms l2 := by
  induction l1 with
  | nil => rfl
  | cons e l ih => cases e <;> simp [rx_arms, ih]

/-- C8: a SETUP with a standard CLEAR_FEATURE, SET_FEATURE, SET_ADDRESS or
SET_CONFIGURATION request leaves `ctrl_state = STATUS` and starts an empty IN
status transfer: the one pipe handed to the driver has a null buffer, size
0, position 0, no short packet pending and no callback.  The driver sees,
in this order, the abort of the transfers in flight, the TX arm, and the
enabling of transfers; nothing is armed on RX. -/
theorem setup_empty_status (t : Target) (d : usb_driver) (req : usb_ctrl_req_t) (m : Machine)
    (htype : req.type = usb_ctrl_req_type.USB_CTRL_REQ_STD)
    (hreq : req.request = USB_CTRL_REQ_CLEAR_FEATURE ∨ req.request = USB_CTRL_REQ_SET_FEATURE ∨
      req.request = USB_CTRL_REQ_SET_ADDRESS ∨ req.request = USB_CTRL_REQ_SET_CONFIGURATION) :
    (usb_handle_control_ep t d { pid := usb_pid.USB_PID_SETUP, data := req } m).usb.ctrl_state =
      usbd_ctrl_state.USBD_CTRL_STATE_STATUS ∧
    ∃ p : usbd_ep_pipe_state_t,
      (usb_handle_control_ep t d { pid := usb_pid.USB_PID_SETUP, data := req } m).log =
        m.log ++ [usb_event.clear_transfers, usb_event.tx_queue_next p,
                  usb_event.enable_xfers] ∧
      (usb_handle_control_ep t d { pid := usb_pid.USB_PID_SETUP, data := req }
        m).usb.ep0_state.tx = d.usb_tx_queue_next p ∧
      (usb_handle_control_ep t d { pid := usb_pid.USB_PID_SETUP, data := req }
        m).usb.ep0_state.rx = m.usb.ep0_state.rx ∧
      p.data_buf = Ptr.NULL ∧ p.transfer_size = 0 ∧ p.pos = 0 ∧ p.short_transfer = 0 ∧
      p.callback = none ∧ p.callback_data = Ptr.NULL ∧
      p.data01 = m.usb.ep0_state.tx.data01 ∧ p.pingpong = m.usb.ep0_state.tx.pingpong ∧
      p.ep_maxsize = m.usb.ep0_state.tx.ep_maxsize := by
  refine ⟨?_, status_pipe m.usb.ep0_state.tx, ?_, ?_, ?_, rfl, rfl, rfl, rfl, rfl, rfl, rfl, rfl,
    rfl⟩
  all_goals
    rcases hreq with h | h | h | h <;>
    simp [usb_handle_control_ep, usb_handle_control, htype, h, usb_tx_status, emit,
      set_ctrl_state]

/-- Witness of C8: SET_CONFIGURATION(1) on the reset device ends in the
STATUS stage. -/
theorem setup_empty_status_witness :
    (usb_handle_control_ep target32 (driver32 0)
      { pid := usb_pid.USB_PID_SETUP, data := std_req USB_CTRL_REQ_SET_CONFIGURATION 1 }
      (machine0 64)).usb.ctrl_state = usbd_ctrl_state.USBD_CTRL_STATE_STATUS :=
  (setup_empty_status target32 (driver32 0) (std_req USB_CTRL_REQ_SET_CONFIGURATION 1)
    (machine0 64) rfl (Or.inr (Or.inr (Or.inr rfl)))).1

theorem setup_set_address_machine (t : Target) (d : usb_driver) (v idx len : Nat)
    (m : Machine) :
    usb_handle_control_ep t d (setup_xfer (set_address_req v idx len)) m =
      { usb := { m.usb with
                 address := v &&& 0x7f
                 state := usbd_state.USBD_STATE_SETTING_ADDRESS
                 ctrl_state := usbd_ctrl_state.USBD_CTRL_STATE_STATUS
                 ep0_state := { m.usb.ep0_state with
                   tx := d.usb_tx_queue_next (status_pipe m.usb.ep0_state.tx) } },
        log := m.log ++ [usb_event.clear_transfers,
                         usb_event.tx_queue_next (status_pipe m.usb.ep0_state.tx),
                         usb_event.enable_xfers] } := by
  simp [usb_handle_control_ep, usb_handle_control, setup_xfer, set_address_req, usb_tx_status,
    emit, set_ctrl_state]

theorem in_status_commit (t : Target) (d : usb_driver) (stat : usb_xfer_info) (m : Machine)
    (hpid : stat.pid = usb_pid.USB_PID_IN)
    (hts : m.usb.ep0_state.tx.transfer_size = 0)
    (hsh : m.usb.ep0_state.tx.short_transfer = 0)
    (hctrl : m.usb.ctrl_state = usbd_ctrl_state.USBD_CTRL_STATE_STATUS)
    (hstate : m.usb.state = usbd_state.USBD_STATE_SETTING_ADDRESS) :
    (usb_handle_control_ep t d stat m).usb.state = usbd_state.USBD_STATE_ADDRESS ∧
    (usb_handle_control_ep t d stat m).usb.ctrl_state = usbd_ctrl_state.USBD_CTRL_STATE_IDLE ∧
    (usb_handle_control_ep t d stat m).usb.address = m.usb.address ∧
    set_addrs (usb_handle_control_ep t d stat m).log = set_addrs m.log ++ [m.usb.address] := by
  have h0 : (usb_tx_next d m).1 = 0 := usb_tx_next_zero d m hts hsh
  have h1 := usb_tx_next_done d m h0
  unfold usb_handle_control_ep
  simp only [hpid, h0, ne_eq, not_true_eq_false, if_false]
  rw [h1]
  simp [status_or_done, hctrl, hstate, set_ctrl_state, usb_setup_control_machine, emit,
    set_addrs_append, set_addrs_done, set_addrs]

/-- C6: a SETUP with a standard SET_ADDRESS request of value `v` leaves the
device in SETTING_ADDRESS with pending address `v & 0x7F` and hands nothing
to `usb_set_addr`.  When the IN completion of the empty status transaction
is then processed, the TX pipe having nothing left to send, the device is in
ADDRESS, the control stage is IDLE, and over the two steps `usb_set_addr`
was called exactly once, with `v & 0x7F`. -/
theorem set_address_deferred (t : Target) (d : usb_driver) (v idx len : Nat) (m : Machine)
    (stat : usb_xfer_info) (hpid : stat.pid = usb_pid.USB_PID_IN)
    (hts : (usb_handle_control_ep t d (setup_xfer (set_address_req v idx len))
      m).usb.ep0_state.tx.transfer_size = 0)
    (hsh : (usb_handle_control_ep t d (setup_xfer (set_address_req v idx len))
      m).usb.ep0_state.tx.short_transfer = 0) :
    (usb_handle_control_ep t d (setup_xfer (set_address_req v idx len)) m).usb.state =
      usbd_state.USBD_STATE_SETTING_ADDRESS ∧
    (usb_handle_control_ep t d (setup_xfer (set_address_req v idx len)) m).usb.address =
      v &&& 0x7f ∧
    set_addrs (usb_handle_control_ep t d (setup_xfer (set_address_req v idx len)) m).log =
      set_addrs m.log ∧
    (usb_handle_control_ep t d stat
      (usb_handle_control_ep t d (setup_xfer (set_address_req v idx len)) m)).usb.state =
      usbd_state.USBD_STATE_ADDRESS ∧
    (usb_handle_control_ep t d stat
      (usb_handle_control_ep t d (setup_xfer (set_address_req v idx len)) m)).usb.ctrl_state =
      usbd_ctrl_state.USBD_CTRL_STATE_IDLE ∧
    set_addrs (usb_handle_control_ep t d stat
      (usb_handle_control_ep t d (setup_xfer (set_address_req v idx len)) m)).log =
      set_addrs m.log ++ [v &&& 0x7f] := by
  have h1 := setup_set_address_machine t d v idx len m
  have hst : (usb_handle_control_ep t d (setup_xfer (set_address_req v idx len)) m).usb.state =
      usbd_state.USBD_STATE_SETTING_ADDRESS := by rw [h1]
  have hct : (usb_handle_control_ep t d (setup_xfer (set_address_req v idx len))
      m).usb.ctrl_state = usbd_ctrl_state.USBD_CTRL_STATE_STATUS := by rw [h1]
  have had : (usb_handle_control_ep t d (setup_xfer (set_address_req v idx len)) m).usb.address =
      v &&& 0x7f := by rw [h1]
  have hlg : set_addrs (usb_handle_control_ep t d (setup_xfer (set_address_req v idx len))
      m).log = set_addrs m.log := by
    rw [h1]; simp [set_addrs_append, set_addrs]
  have h2 := in_status_commit t d stat _ hpid hts hsh hct hst
  refine ⟨hst, had, hlg, h2.1, h2.2.1, ?_⟩
  rw [h2.2.2.2, hlg, had]

/-- Witness of C6 with `v = 0x45` on the reset device and the chunk driver:
the address 0x45 is committed once, after the status stage. -/
theorem set_address_deferred_witness :
    (usb_handle_control_ep target32 (driver32 0) (setup_xfer (set_address_req 0x45 0 0))
      (machine0 64)).usb.state = usbd_state.USBD_STATE_SETTING_ADDRESS ∧
    set_addrs (usb_handle_control_ep target32 (driver32 0)
      (setup_xfer (set_address_req 0x45 0 0)) (machine0 64)).log = [] ∧
    (usb_handle_control_ep target32 (driver32 0) in_xfer
      (usb_handle_control_ep target32 (driver32 0) (setup_xfer (set_address_req 0x45 0 0))
        (machine0 64))).usb.state = usbd_state.USBD_STATE_ADDRESS ∧
    set_addrs (usb_handle_control_ep target32 (driver32 0) in_xfer
      (usb_handle_control_ep target32 (driver32 0) (setup_xfer (set_address_req 0x45 0 0))
        (machine0 64))).log = [0x45] :=
  have h := set_address_deferred target32 (driver32 0) 0x45 0 0 (machine0 64) in_xfer rfl
    (by decide) (by decide)
  ⟨h.1, h.2.2.1, h.2.2.2.1, h.2.2.2.2.2⟩

/-- C7, the code at the failing input: GET_CONFIGURATION with current
configuration 3 on the chunk driver with 64-byte packets.  The reply of 1
byte with value 3 is copied to slot 0 and armed, `usb_tx` returns the 0 bytes
that remain after the arm, and the SETUP handler takes `case 0`: the stage is
STATUS, but a second, empty TX transfer has been started over the reply, so
two TX transactions are armed and the TX pipe afterwards is the empty status
pipe, not the reply.  The 2-byte GET_STATUS reply fares the same. -/
theorem setup_in_reply_clobbered :
    (usb_handle_control_ep target32 (driver32 0)
      (setup_xfer (std_req USB_CTRL_REQ_GET_CONFIGURATION 0)) machine_cfg3).usb.ctrl_state =
      usbd_ctrl_state.USBD_CTRL_STATE_STATUS ∧
    (usb_handle_control_ep target32 (driver32 0)
      (setup_xfer (std_req USB_CTRL_REQ_GET_CONFIGURATION 0)) machine_cfg3).log =
      [usb_event.clear_transfers,
       usb_event.tx_queue_next { pipe0 64 with data_buf := Ptr.ep0_buf 0, transfer_size := 1 },
       usb_event.tx_queue_next (pipe0 64),
       usb_event.enable_xfers] ∧
    ((usb_handle_control_ep target32 (driver32 0)
      (setup_xfer (std_req USB_CTRL_REQ_GET_CONFIGURATION 0)) machine_cfg3).usb.ep0_buf.getD 0
        []).take 1 = [3] ∧
    (usb_handle_control_ep target32 (driver32 0)
      (setup_xfer (std_req USB_CTRL_REQ_GET_CONFIGURATION 0)) machine_cfg3).usb.ep0_state.tx =
      pipe0 64 ∧
    (pipe0 64).data_buf = Ptr.NULL ∧
    (usb_handle_control target32 (driver32 0) (std_req USB_CTRL_REQ_GET_CONFIGURATION 0)
      (emit machine_cfg3 usb_event.clear_transfers)).1 = 0 ∧
    tx_arms (usb_handle_control_ep target32 (driver32 0)
      (setup_xfer (std_req USB_CTRL_REQ_GET_STATUS 0)) (machine0 64)).log =
      [{ pipe0 64 with data_buf := Ptr.ep0_buf 0, transfer_size := 2 }, pipe0 64] := by
  decide

theorem usb_tx_cp_fail (t : Target) (d : usb_driver) (buf : List Nat) (len : Nat) (m : Machine)
    (h : t.EP0_BUFSIZE < len) : usb_tx_cp t d buf len m = (-1, m) := by
  simp [usb_tx_cp, h]

theorem usb_tx_cp_machine (t : Target) (d : usb_driver) (buf : List Nat) (len : Nat)
    (m : Machine) (h : len ≤ t.EP0_BUFSIZE) :
    (usb_tx_cp t d buf len m).2 =
      { usb := { m.usb with
                 ep0_buf := m.usb.ep0_buf.set m.usb.ep0_state.tx.pingpong
                   (memcpy (m.usb.ep0_buf.getD m.usb.ep0_state.tx.pingpong []) buf len)
                 ep0_state := { m.usb.ep0_state with
                   tx := d.usb_tx_queue_next (cp_pipe m.usb.ep0_state.tx len) } },
        log := m.log ++ [usb_event.tx_queue_next (cp_pipe m.usb.ep0_state.tx len)] } := by
  simp [usb_tx_cp, Nat.not_lt.mpr h, usb_tx, tx_queue_next, emit, set_tx, cp_pipe]

theorem usb_tx_cp_result (t : Target) (d : usb_driver) (buf : List Nat) (len : Nat)
    (m : Machine) (h : len ≤ t.EP0_BUFSIZE) :
    (usb_tx_cp t d buf len m).1 =
      size_to_int t (d.usb_tx_queue_next (cp_pipe m.usb.ep0_state.tx len)).transfer_size := by
  have hm := usb_tx_cp_machine t d buf len m h
  have hr : (usb_tx_cp t d buf len m).1 =
      size_to_int t (usb_tx_cp t d buf len m).2.usb.ep0_state.tx.transfer_size := by
    simp only [usb_tx_cp, gt_iff_lt, Nat.not_lt.mpr h, if_false]
    exact usb_tx_result t d _ _ _ _ _ _
  rw [hr, hm]

/-- The SETUP handler on the chunk driver, for every state in which a reply
fits one packet and one buffer slot: a standard GET_STATUS,
GET_CONFIGURATION or GET_INTERFACE request arms its reply, the dispatcher
returns 0, and the handler starts the empty status transfer over the reply.
The stage is STATUS, two TX transactions are armed (the reply, then an empty
one), and the TX pipe afterwards has a null buffer and nothing to send. -/
theorem setup_in_reply_chunk (t : Target) (rxlen : Nat → usb_ep_dir → Nat → Nat)
    (req : usb_ctrl_req_t) (m : Machine)
    (htype : req.type = usb_ctrl_req_type.USB_CTRL_REQ_STD)
    (hreq : req.request = USB_CTRL_REQ_GET_STATUS ∨
      req.request = USB_CTRL_REQ_GET_CONFIGURATION ∨ req.request = USB_CTRL_REQ_GET_INTERFACE)
    (hbuf : 2 ≤ t.EP0_BUFSIZE) (hmx : 2 ≤ m.usb.ep0_state.tx.ep_maxsize)
    (hint : 3 ≤ t.INT_BITS) :
    (usb_handle_control t (chunk_driver t rxlen) req
      (emit m usb_event.clear_transfers)).1 = 0 ∧
    (usb_handle_control_ep t (chunk_driver t rxlen) (setup_xfer req) m).usb.ctrl_state =
      usbd_ctrl_state.USBD_CTRL_STATE_STATUS ∧
    tx_arms (usb_handle_control_ep t (chunk_driver t rxlen) (setup_xfer req) m).log =
      tx_arms m.log ++
        [cp_pipe m.usb.ep0_state.tx (if req.request = USB_CTRL_REQ_GET_STATUS then 2 else 1),
         status_pipe (chunk_tx_queue_next t (cp_pipe m.usb.ep0_state.tx
           (if req.request = USB_CTRL_REQ_GET_STATUS then 2 else 1)))] ∧
    (usb_handle_control_ep t (chunk_driver t rxlen) (setup_xfer req)
      m).usb.ep0_state.tx.data_buf = Ptr.NULL ∧
    (usb_handle_control_ep t (chunk_driver t rxlen) (setup_xfer req)
      m).usb.ep0_state.tx.transfer_size = 0 := by
  have hcp : ∀ (buf : List Nat) (len : Nat), len ≤ 2 → 0 < len →
      (usb_tx_cp t (chunk_driver t rxlen) buf len (emit m usb_event.clear_transfers)).1 = 0 := by
    intro buf len h2 _
    rw [usb_tx_cp_result t _ buf len _ (by omega)]
    have hz : ((chunk_driver t rxlen).usb_tx_queue_next
        (cp_pipe (emit m usb_event.clear_transfers).usb.ep0_state.tx len)).transfer_size = 0 := by
      simp only [chunk_driver, chunk_tx_queue_next, cp_pipe, emit]
      omega
    rw [hz, size_to_int_small t 0 (by omega) hint]
    rfl
  have hstep : ∀ (buf : List Nat) (len : Nat), len ≤ 2 → 0 < len →
      usb_handle_control t (chunk_driver t rxlen) req (emit m usb_event.clear_transfers) =
        usb_tx_cp t (chunk_driver t rxlen) buf len (emit m usb_event.clear_transfers) →
      (usb_handle_control t (chunk_driver t rxlen) req
        (emit m usb_event.clear_transfers)).1 = 0 ∧
      (usb_handle_control_ep t (chunk_driver t rxlen) (setup_xfer req) m).usb.ctrl_state =
        usbd_ctrl_state.USBD_CTRL_STATE_STATUS ∧
      tx_arms (usb_handle_control_ep t (chunk_driver t rxlen) (setup_xfer req) m).log =
        tx_arms m.log ++
          [cp_pipe m.usb.ep0_state.tx len,
           status_pipe (chunk_tx_queue_next t (cp_pipe m.usb.ep0_state.tx len))] ∧
      (usb_handle_control_ep t (chunk_driver t rxlen) (setup_xfer req)
        m).usb.ep0_state.tx.data_buf = Ptr.NULL ∧
      (usb_handle_control_ep t (chunk_driver t rxlen) (setup_xfer req)
        m).usb.ep0_state.tx.transfer_size = 0 := by
    intro buf len h2 h0 heq
    have hr : (usb_handle_control t (chunk_driver t rxlen) req
        (emit m usb_event.clear_transfers)).1 = 0 := by rw [heq]; exact hcp buf len h2 h0
    have hep : usb_handle_control_ep t (chunk_driver t rxlen) (setup_xfer req) m =
        emit (usb_tx t (chunk_driver t rxlen) Ptr.NULL 0 0 none Ptr.NULL
          (set_ctrl_state (usb_handle_control t (chunk_driver t rxlen) req
            (emit m usb_event.clear_transfers)).2
            usbd_ctrl_state.USBD_CTRL_STATE_STATUS)).2 usb_event.enable_xfers := by
      simp only [usb_handle_control_ep, setup_xfer, hr, if_true]
    refine ⟨hr, ?_, ?_, ?_, ?_⟩
    all_goals
      rw [hep, usb_tx_status, heq, usb_tx_cp_machine t _ buf len _ (by omega)]
      simp [emit, set_ctrl_state, tx_arms_append, tx_arms, chunk_driver, chunk_tx_queue_next,
        status_pipe, cp_pipe]
  rcases hreq with h | h | h
  · have := hstep [0, 0] 2 (le_refl _) (by decide)
      (by simp [usb_handle_control, htype, h])
    simpa [h] using this
  · have := hstep [m.usb.config] 1 (by decide) (by decide)
      (by simp [usb_handle_control, htype, h, emit])
    simpa [h] using this
  · have := hstep [0, 0] 1 (by decide) (by decide)
      (by simp [usb_handle_control, htype, h])
    simpa [h] using this

/-- The error path of the SETUP handler, for every state: a standard
SET_INTERFACE request stalls endpoint 0, sets the RX toggle to DATA0 and the
TX toggle to DATA1 and arms RX for `EP0_BUFSIZE` bytes from position 0, in
the order abort, stall, RX arm, enable; `ctrl_state` keeps the value it had
before. -/
theorem setup_set_interface_stall (t : Target) (d : usb_driver) (v idx len : Nat)
    (m : Machine) :
    ∃ q : usbd_ep_pipe_state_t,
      (usb_handle_control_ep t d (setup_xfer
        { type := usb_ctrl_req_type.USB_CTRL_REQ_STD, request := USB_CTRL_REQ_SET_INTERFACE,
          value := v, index := idx, length := len }) m).log =
        m.log ++ [usb_event.clear_transfers, usb_event.ep_stall 0, usb_event.rx_queue_next q,
                  usb_event.enable_xfers] ∧
      (usb_handle_control_ep t d (setup_xfer
        { type := usb_ctrl_req_type.USB_CTRL_REQ_STD, request := USB_CTRL_REQ_SET_INTERFACE,
          value := v, index := idx, length := len }) m).usb.ep0_state.rx =
        d.usb_rx_queue_next q ∧
      (usb_handle_control_ep t d (setup_xfer
        { type := usb_ctrl_req_type.USB_CTRL_REQ_STD, request := USB_CTRL_REQ_SET_INTERFACE,
          value := v, index := idx, length := len }) m).usb.ep0_state.tx.data01 =
        USB_DATA01_DATA1 ∧
      (usb_handle_control_ep t d (setup_xfer
        { type := usb_ctrl_req_type.USB_CTRL_REQ_STD, request := USB_CTRL_REQ_SET_INTERFACE,
          value := v, index := idx, length := len }) m).usb.ctrl_state = m.usb.ctrl_state ∧
      q.data01 = USB_DATA01_DATA0 ∧ q.transfer_size = t.EP0_BUFSIZE ∧ q.pos = 0 ∧
      q.data_buf = Ptr.ep0_buf m.usb.ep0_state.rx.pingpong ∧ q.callback = none := by
  refine ⟨{ m.usb.ep0_state.rx with
            data01 := USB_DATA01_DATA0,
            data_buf := Ptr.ep0_buf m.usb.ep0_state.rx.pingpong,
            transfer_size := t.EP0_BUFSIZE, pos := 0,
            callback := none, callback_data := Ptr.NULL }, ?_, ?_, ?_, ?_, rfl, rfl, rfl, rfl, rfl⟩
  all_goals
    simp [usb_handle_control_ep, usb_handle_control, setup_xfer, usb_setup_control_machine,
      emit]

/-- C9, the code at the failing input: a SETUP with SET_INTERFACE arriving
while `ctrl_state` is STATUS stalls endpoint 0 and re-arms RX with the
toggles DATA0 / DATA1, but `ctrl_state` is still STATUS afterwards, not
IDLE. -/
theorem setup_set_interface_stage_kept :
    (usb_handle_control_ep target32 (driver32 0)
      (setup_xfer (std_req USB_CTRL_REQ_SET_INTERFACE 1))
      (set_ctrl_state (machine0 64) usbd_ctrl_state.USBD_CTRL_STATE_STATUS)).usb.ctrl_state =
      usbd_ctrl_state.USBD_CTRL_STATE_STATUS ∧
    (usb_handle_control_ep target32 (driver32 0)
      (setup_xfer (std_req USB_CTRL_REQ_SET_INTERFACE 1))
      (set_ctrl_state (machine0 64) usbd_ctrl_state.USBD_CTRL_STATE_STATUS)).log =
      [usb_event.clear_transfers, usb_event.ep_stall 0,
       usb_event.rx_queue_next { pipe0 64 with data_buf := Ptr.ep0_buf 0, transfer_size := 64 },
       usb_event.enable_xfers] ∧
    (usb_handle_control_ep target32 (driver32 0)
      (setup_xfer (std_req USB_CTRL_REQ_SET_INTERFACE 1))
      (set_ctrl_state (machine0 64)
        usbd_ctrl_state.USBD_CTRL_STATE_STATUS)).usb.ep0_state.rx.data01 = USB_DATA01_DATA0 ∧
    (usb_handle_control_ep target32 (driver32 0)
      (setup_xfer (std_req USB_CTRL_REQ_SET_INTERFACE 1))
      (set_ctrl_state (machine0 64)
        usbd_ctrl_state.USBD_CTRL_STATE_STATUS)).usb.ep0_state.tx.data01 = USB_DATA01_DATA1 := by
  decide

/-- The stage transition the "done with status" path performs before the
same re-arm: an IN completion that ends a transfer outside the DATA stage
sets `ctrl_state` to IDLE. -/
theorem status_done_sets_idle (t : Target) (d : usb_driver) (m : Machine)
    (h : m.usb.ctrl_state ≠ usbd_ctrl_state.USBD_CTRL_STATE_DATA)
    (h0 : (usb_tx_next d m).1 = 0) :
    (usb_handle_control_ep t d in_xfer m).usb.ctrl_state =
      usbd_ctrl_state.USBD_CTRL_STATE_IDLE := by
  have h1 := usb_tx_next_done d m h0
  unfold usb_handle_control_ep
  simp only [in_xfer, h0, ne_eq, not_true_eq_false, if_false]
  rw [h1]
  cases hc : m.usb.ctrl_state with
  | USBD_CTRL_STATE_DATA => exact absurd hc h
  | USBD_CTRL_STATE_IDLE =>
    simp only [status_or_done, hc, usb_setup_control_machine, set_ctrl_state]
    split <;> rfl
  | USBD_CTRL_STATE_STATUS =>
    simp only [status_or_done, hc, usb_setup_control_machine, set_ctrl_state]
    split <;> rfl

theorem rx_arms_tx_done (s : usbd_ep_pipe_state_t) : rx_arms (tx_done_events s) = [] := by
  unfold tx_done_events
  cases s.callback <;> rfl

theorem rx_arms_rx_done (s : usbd_ep_pipe_state_t) : rx_arms (rx_done_events s) = [] := by
  unfold rx_done_events
  cases s.callback <;> rfl

theorem tx_arms_rx_done (s : usbd_ep_pipe_state_t) : tx_arms (rx_done_events s) = [] := by
  unfold rx_done_events
  cases s.callback <;> rfl

theorem set_addrs_rx_done (s : usbd_ep_pipe_state_t) : set_addrs (rx_done_events s) = [] := by
  unfold rx_done_events
  cases s.callback <;> rfl

/-- C10: in the DATA stage, when the queuer reports completion.  After an IN
completion `ctrl_state` is STATUS and one RX transaction is armed for an
empty OUT status transfer (toggle DATA1, size 0, position 0), nothing on TX.
After an OUT completion `ctrl_state` is STATUS and one TX transaction is
armed for an empty IN status transfer (toggle DATA1, size 0, no short packet
pending), nothing on RX.  Neither step calls `usb_set_addr` or changes the
device state or the pending address. -/
theorem data_stage_done (t : Target) (d : usb_driver) (m : Machine) (data : usb_ctrl_req_t)
    (hctrl : m.usb.ctrl_state = usbd_ctrl_state.USBD_CTRL_STATE_DATA) :
    ((usb_tx_next d m).1 = 0 →
      (usb_handle_control_ep t d { pid := usb_pid.USB_PID_IN, data := data } m).usb.ctrl_state =
        usbd_ctrl_state.USBD_CTRL_STATE_STATUS ∧
      ∃ q : usbd_ep_pipe_state_t,
        (usb_handle_control_ep t d { pid := usb_pid.USB_PID_IN, data := data } m).log =
          m.log ++ tx_done_events m.usb.ep0_state.tx ++ [usb_event.rx_queue_next q] ∧
        (usb_handle_control_ep t d { pid := usb_pid.USB_PID_IN, data := data }
          m).usb.ep0_state.rx = d.usb_rx_queue_next q ∧
        q.data01 = USB_DATA01_DATA1 ∧ q.transfer_size = 0 ∧ q.pos = 0 ∧
        q.data_buf = Ptr.NULL ∧ q.callback = none ∧
        tx_arms (usb_handle_control_ep t d { pid := usb_pid.USB_PID_IN, data := data } m).log =
          tx_arms m.log ∧
        rx_arms (usb_handle_control_ep t d { pid := usb_pid.USB_PID_IN, data := data } m).log =
          rx_arms m.log ++ [q] ∧
        set_addrs (usb_handle_control_ep t d { pid := usb_pid.USB_PID_IN, data := data } m).log =
          set_addrs m.log ∧
        (usb_handle_control_ep t d { pid := usb_pid.USB_PID_IN, data := data } m).usb.state =
          m.usb.state ∧
        (usb_handle_control_ep t d { pid := usb_pid.USB_PID_IN, data := data } m).usb.address =
          m.usb.address) ∧
    ((usb_rx_next t d m).1 = 0 →
      (usb_handle_control_ep t d { pid := usb_pid.USB_PID_OUT, data := data } m).usb.ctrl_state =
        usbd_ctrl_state.USBD_CTRL_STATE_STATUS ∧
      ∃ p : usbd_ep_pipe_state_t,
        (usb_handle_control_ep t d { pid := usb_pid.USB_PID_OUT, data := data } m).log =
          m.log ++ rx_done_events (rx_accounted t (rx_thislen d m) m.usb.ep0_state.rx) ++
            [usb_event.tx_queue_next p] ∧
        (usb_handle_control_ep t d { pid := usb_pid.USB_PID_OUT, data := data }
          m).usb.ep0_state.tx = d.usb_tx_queue_next p ∧
        p.data01 = USB_DATA01_DATA1 ∧ p.transfer_size = 0 ∧ p.pos = 0 ∧
        p.short_transfer = 0 ∧ p.data_buf = Ptr.NULL ∧ p.callback = none ∧
        rx_arms (usb_handle_control_ep t d { pid := usb_pid.USB_PID_OUT, data := data } m).log =
          rx_arms m.log ∧
        tx_arms (usb_handle_control_ep t d { pid := usb_pid.USB_PID_OUT, data := data } m).log =
          tx_arms m.log ++ [p] ∧
        set_addrs (usb_handle_control_ep t d { pid := usb_pid.USB_PID_OUT, data := data }
          m).log = set_addrs m.log ∧
        (usb_handle_control_ep t d { pid := usb_pid.USB_PID_OUT, data := data } m).usb.state =
          m.usb.state ∧
        (usb_handle_control_ep t d { pid := usb_pid.USB_PID_OUT, data := data } m).usb.address =
          m.usb.address) := by
  constructor
  · intro h0
    have h1 := usb_tx_next_done d m h0
    have hep : usb_handle_control_ep t d { pid := usb_pid.USB_PID_IN, data := data } m =
        status_or_done t d { pid := usb_pid.USB_PID_IN, data := data } (usb_tx_next d m).2 := by
      simp only [usb_handle_control_ep, h0, ne_eq, not_true_eq_false, if_false]
    rw [hep, h1]
    refine ⟨?_, { m.usb.ep0_state.rx with
                  data01 := USB_DATA01_DATA1, data_buf := Ptr.NULL,
                  transfer_size := 0, pos := 0, callback := none, callback_data := Ptr.NULL },
      ?_, ?_, rfl, rfl, rfl, rfl, rfl, ?_, ?_, ?_, ?_, ?_⟩
    all_goals
      simp [status_or_done, hctrl, set_ctrl_state, usb_rx_machine, set_rx, tx_arms_append,
        rx_arms_append, set_addrs_append, tx_arms_done, rx_arms_tx_done, set_addrs_done,
        tx_arms, rx_arms, set_addrs]
  · intro h0
    have h1 := usb_rx_next_done t d m h0
    have hep : usb_handle_control_ep t d { pid := usb_pid.USB_PID_OUT, data := data } m =
        status_or_done t d { pid := usb_pid.USB_PID_OUT, data := data }
          (usb_rx_next t d m).2 := by
      simp only [usb_handle_control_ep, h0, ne_eq, not_true_eq_false, if_false]
    rw [hep, h1]
    refine ⟨?_, { m.usb.ep0_state.tx with
                  data01 := USB_DATA01_DATA1, data_buf := Ptr.NULL,
                  transfer_size := 0, pos := 0, short_transfer := 0, callback := none,
                  callback_data := Ptr.NULL },
      ?_, ?_, rfl, rfl, rfl, rfl, rfl, rfl, ?_, ?_, ?_, ?_, ?_⟩
    all_goals
      simp [status_or_done, hctrl, set_ctrl_state, usb_tx_status, status_pipe, set_tx,
        tx_arms_append, rx_arms_append, set_addrs_append, tx_arms_rx_done, rx_arms_rx_done,
        set_addrs_rx_done, tx_arms, rx_arms, set_addrs]

/-- Witness of C10 on the reset device put in the DATA stage: both an IN and
an OUT completion that end the data stage lead to the STATUS stage. -/
theorem data_stage_done_witness :
    (usb_handle_control_ep target32 (driver32 0)
      { pid := usb_pid.USB_PID_IN, data := std_req 0 0 }
      (set_ctrl_state (machine0 64) usbd_ctrl_state.USBD_CTRL_STATE_DATA)).usb.ctrl_state =
      usbd_ctrl_state.USBD_CTRL_STATE_STATUS ∧
    (usb_handle_control_ep target32 (driver32 0)
      { pid := usb_pid.USB_PID_OUT, data := std_req 0 0 }
      (set_ctrl_state (machine0 64) usbd_ctrl_state.USBD_CTRL_STATE_DATA)).usb.ctrl_state =
      usbd_ctrl_state.USBD_CTRL_STATE_STATUS :=
  have h := data_stage_done target32 (driver32 0)
    (set_ctrl_state (machine0 64) usbd_ctrl_state.USBD_CTRL_STATE_DATA) (std_req 0 0) rfl
  ⟨(h.1 (by decide)).1, (h.2 (by decide)).1⟩

/-! ## The end of a control transfer -/

theorem status_or_done_not_data (t : Target) (d : usb_driver) (stat : usb_xfer_info)
    (m : Machine) (h : m.usb.ctrl_state ≠ usbd_ctrl_state.USBD_CTRL_STATE_DATA) :
    status_or_done t d stat m =
      usb_setup_control t d
        (commit_address (set_ctrl_state m usbd_ctrl_state.USBD_CTRL_STATE_IDLE)) := by
  cases hc : m.usb.ctrl_state with
  | USBD_CTRL_STATE_DATA => exact absurd hc h
  | USBD_CTRL_STATE_IDLE => simp only [status_or_done, hc, commit_address]
  | USBD_CTRL_STATE_STATUS => simp only [status_or_done, hc, commit_address]

theorem commit_address_frame (m : Machine) :
    (commit_address m).usb.ctrl_state = m.usb.ctrl_state ∧
    (commit_address m).usb.ep0_state = m.usb.ep0_state ∧
    (commit_address m).usb.ep0_buf = m.usb.ep0_buf ∧
    (commit_address m).usb.address = m.usb.address ∧
    rx_arms (commit_address m).log = rx_arms m.log ∧
    tx_arms (commit_address m).log = tx_arms m.log := by
  unfold commit_address
  split <;> simp [emit, rx_arms_append, tx_arms_append, rx_arms, tx_arms]

theorem commit_address_log (m : Machine) :
    set_addrs (commit_address m).log = set_addrs m.log ++
      (if m.usb.state = usbd_state.USBD_STATE_SETTING_ADDRESS then [m.usb.address] else []) ∧
    (m.usb.state = usbd_state.USBD_STATE_SETTING_ADDRESS →
      (commit_address m).usb.state = usbd_state.USBD_STATE_ADDRESS) ∧
    (m.usb.state ≠ usbd_state.USBD_STATE_SETTING_ADDRESS →
      (commit_address m).usb.state = m.usb.state) := by
  unfold commit_address
  by_cases h : m.usb.state = usbd_state.USBD_STATE_SETTING_ADDRESS
  · simp [h, emit, set_addrs_append, set_addrs]
  · simp [h]

theorem usb_setup_control_setup_pipe (t : Target) (d : usb_driver) (m : Machine) :
    usb_setup_control t d m =
      { usb := { m.usb with ep0_state :=
                   { tx := { m.usb.ep0_state.tx with data01 := USB_DATA01_DATA1 }
                     rx := d.usb_rx_queue_next (setup_pipe t m.usb.ep0_state.rx) } },
        log := m.log ++ [usb_event.rx_queue_next (setup_pipe t m.usb.ep0_state.rx)] } := by
  rw [usb_setup_control_machine]
  rfl

theorem in_done_machine (t : Target) (d : usb_driver) (data : usb_ctrl_req_t) (m : Machine)
    (hctrl : m.usb.ctrl_state ≠ usbd_ctrl_state.USBD_CTRL_STATE_DATA)
    (h0 : (usb_tx_next d m).1 = 0) :
    usb_handle_control_ep t d { pid := usb_pid.USB_PID_IN, data := data } m =
      usb_setup_control t d (commit_address (set_ctrl_state
        { usb := { m.usb with ep0_state := { m.usb.ep0_state with
                     tx := { m.usb.ep0_state.tx with
                             data01 := m.usb.ep0_state.tx.data01 ^^^ 1 } } },
          log := m.log ++ tx_done_events m.usb.ep0_state.tx }
        usbd_ctrl_state.USBD_CTRL_STATE_IDLE)) := by
  have hep : usb_handle_control_ep t d { pid := usb_pid.USB_PID_IN, data := data } m =
      status_or_done t d { pid := usb_pid.USB_PID_IN, data := data } (usb_tx_next d m).2 := by
    simp only [usb_handle_control_ep, h0, ne_eq, not_true_eq_false, if_false]
  rw [hep, usb_tx_next_done d m h0]
  exact status_or_done_not_data t d _ _ (by exact hctrl)

theorem out_done_machine (t : Target) (d : usb_driver) (data : usb_ctrl_req_t) (m : Machine)
    (hctrl : m.usb.ctrl_state ≠ usbd_ctrl_state.USBD_CTRL_STATE_DATA)
    (h0 : (usb_rx_next t d m).1 = 0) :
    usb_handle_control_ep t d { pid := usb_pid.USB_PID_OUT, data := data } m =
      usb_setup_control t d (commit_address (set_ctrl_state
        { usb := { m.usb with ep0_state := { m.usb.ep0_state with
                     rx := rx_accounted t (rx_thislen d m) m.usb.ep0_state.rx } },
          log := m.log ++ rx_done_events (rx_accounted t (rx_thislen d m) m.usb.ep0_state.rx) }
        usbd_ctrl_state.USBD_CTRL_STATE_IDLE)) := by
  have hep : usb_handle_control_ep t d { pid := usb_pid.USB_PID_OUT, data := data } m =
      status_or_done t d { pid := usb_pid.USB_PID_OUT, data := data }
        (usb_rx_next t d m).2 := by
    simp only [usb_handle_control_ep, h0, ne_eq, not_true_eq_false, if_false]
  rw [hep, usb_rx_next_done t d m h0]
  exact status_or_done_not_data t d _ _ (by exact hctrl)

/-- C11: outside the DATA stage, when the queuer reports completion on an IN
or an OUT completion, `usb_handle_control_ep` ends with `ctrl_state = IDLE`
and the TX toggle DATA1, and it hands the RX pipe to the driver exactly once,
re-armed for the next SETUP: toggle DATA0, `data_buf` the EP0 buffer slot of
the RX pingpong (after an OUT completion the pingpong `usb_rx_next` has just
flipped), `transfer_size = EP0_BUFSIZE`, `pos = 0`, no callback.  No TX
transaction is armed. -/
theorem status_stage_done (t : Target) (d : usb_driver) (m : Machine) (data : usb_ctrl_req_t)
    (hctrl : m.usb.ctrl_state ≠ usbd_ctrl_state.USBD_CTRL_STATE_DATA) :
    ((usb_tx_next d m).1 = 0 →
      (usb_handle_control_ep t d { pid := usb_pid.USB_PID_IN, data := data } m).usb.ctrl_state =
        usbd_ctrl_state.USBD_CTRL_STATE_IDLE ∧
      (usb_handle_control_ep t d { pid := usb_pid.USB_PID_IN, data := data }
        m).usb.ep0_state.tx.data01 = USB_DATA01_DATA1 ∧
      ∃ q : usbd_ep_pipe_state_t,
        rx_arms (usb_handle_control_ep t d { pid := usb_pid.USB_PID_IN, data := data } m).log =
          rx_arms m.log ++ [q] ∧
        tx_arms (usb_handle_control_ep t d { pid := usb_pid.USB_PID_IN, data := data } m).log =
          tx_arms m.log ∧
        (usb_handle_control_ep t d { pid := usb_pid.USB_PID_IN, data := data }
          m).usb.ep0_state.rx = d.usb_rx_queue_next q ∧
        q.data01 = USB_DATA01_DATA0 ∧ q.pingpong = m.usb.ep0_state.rx.pingpong ∧
        q.data_buf = Ptr.ep0_buf q.pingpong ∧ q.transfer_size = t.EP0_BUFSIZE ∧ q.pos = 0 ∧
        q.callback = none) ∧
    ((usb_rx_next t d m).1 = 0 →
      (usb_handle_control_ep t d { pid := usb_pid.USB_PID_OUT, data := data } m).usb.ctrl_state =
        usbd_ctrl_state.USBD_CTRL_STATE_IDLE ∧
      (usb_handle_control_ep t d { pid := usb_pid.USB_PID_OUT, data := data }
        m).usb.ep0_state.tx.data01 = USB_DATA01_DATA1 ∧
      ∃ q : usbd_ep_pipe_state_t,
        rx_arms (usb_handle_control_ep t d { pid := usb_pid.USB_PID_OUT, data := data } m).log =
          rx_arms m.log ++ [q] ∧
        tx_arms (usb_handle_control_ep t d { pid := usb_pid.USB_PID_OUT, data := data } m).log =
          tx_arms m.log ∧
        (usb_handle_control_ep t d { pid := usb_pid.USB_PID_OUT, data := data }
          m).usb.ep0_state.rx = d.usb_rx_queue_next q ∧
        q.data01 = USB_DATA01_DATA0 ∧ q.pingpong = m.usb.ep0_state.rx.pingpong ^^^ 1 ∧
        q.data_buf = Ptr.ep0_buf q.pingpong ∧ q.transfer_size = t.EP0_BUFSIZE ∧ q.pos = 0 ∧
        q.callback = none) := by
  constructor
  · intro h0
    rw [in_done_machine t d data m hctrl h0, usb_setup_control_setup_pipe]
    obtain ⟨hc, he, -, -, hr, ht⟩ := commit_address_frame (set_ctrl_state
      { usb := { m.usb with ep0_state := { m.usb.ep0_state with
                   tx := { m.usb.ep0_state.tx with
                           data01 := m.usb.ep0_state.tx.data01 ^^^ 1 } } },
        log := m.log ++ tx_done_events m.usb.ep0_state.tx }
      usbd_ctrl_state.USBD_CTRL_STATE_IDLE)
    refine ⟨hc, rfl, setup_pipe t m.usb.ep0_state.rx, ?_, ?_, ?_, rfl, rfl, rfl, rfl, rfl, rfl⟩
    · simp only [rx_arms_append, hr, he]
      simp [set_ctrl_state, rx_arms_append, rx_arms_tx_done, rx_arms]
    · simp only [tx_arms_append, ht]
      simp [set_ctrl_state, tx_arms_append, tx_arms_done, tx_arms]
    · simp only [he]
      simp [set_ctrl_state]
  · intro h0
    rw [out_done_machine t d data m hctrl h0, usb_setup_control_setup_pipe]
    obtain ⟨hc, he, -, -, hr, ht⟩ := commit_address_frame (set_ctrl_state
      { usb := { m.usb with ep0_state := { m.usb.ep0_state with
                   rx := rx_accounted t (rx_thislen d m) m.usb.ep0_state.rx } },
        log := m.log ++ rx_done_events (rx_accounted t (rx_thislen d m) m.usb.ep0_state.rx) }
      usbd_ctrl_state.USBD_CTRL_STATE_IDLE)
    refine ⟨hc, rfl, setup_pipe t (rx_accounted t (rx_thislen d m) m.usb.ep0_state.rx),
      ?_, ?_, ?_, rfl, rfl, rfl, rfl, rfl, rfl⟩
    · simp only [rx_arms_append, hr, he]
      simp [set_ctrl_state, rx_arms_append, rx_arms_rx_done, rx_arms]
    · simp only [tx_arms_append, ht]
      simp [set_ctrl_state, tx_arms_append, tx_arms_rx_done, tx_arms]
    · simp only [he]
      simp [set_ctrl_state]

/-- Witness of C11 on the reset device in the STATUS stage: an IN and an OUT
completion that end the status transaction lead to IDLE. -/
theorem status_stage_done_witness :
    (usb_handle_control_ep target32 (driver32 0)
      { pid := usb_pid.USB_PID_IN, data := std_req 0 0 }
      (set_ctrl_state (machine0 64) usbd_ctrl_state.USBD_CTRL_STATE_STATUS)).usb.ctrl_state =
      usbd_ctrl_state.USBD_CTRL_STATE_IDLE ∧
    (usb_handle_control_ep target32 (driver32 0)
      { pid := usb_pid.USB_PID_OUT, data := std_req 0 0 }
      (set_ctrl_state (machine0 64) usbd_ctrl_state.USBD_CTRL_STATE_STATUS)).usb.ctrl_state =
      usbd_ctrl_state.USBD_CTRL_STATE_IDLE :=
  have h := status_stage_done target32 (driver32 0)
    (set_ctrl_state (machine0 64) usbd_ctrl_state.USBD_CTRL_STATE_STATUS) (std_req 0 0)
    (by decide)
  ⟨(h.1 (by decide)).1, (h.2 (by decide)).1⟩

/-! ## The scratch-buffer transmit -/

theorem memcpy_take (dest src : List Nat) (len : Nat) (h : len ≤ src.length) :
    (memcpy dest src len).take len = src.take len ∧
    (memcpy dest src len).drop len = dest.drop len := by
  unfold memcpy
  have hl : (src.take len).length = len := by simp [h]
  constructor
  · rw [List.take_append_of_le_length (by omega)]
    rw [List.take_of_length_le (by omega)]
  · rw [List.drop_append_of_le_length (by omega)]
    rw [List.drop_of_length_le (by omega)]
    simp

theorem getD_set_self (l : List (List Nat)) (i : Nat) (a : List Nat) (h : i < l.length) :
    (l.set i a).getD i [] = a := by
  simp [List.getD_eq_getElem?_getD, h]

/-- C12: `usb_tx_cp(buf, len)` with `len > EP0_BUFSIZE` returns -1 and leaves
the machine, buffer slots and log included, as it was.  With
`len <= EP0_BUFSIZE` it copies `len` bytes of `buf` to the start of the EP0
buffer slot indexed by the TX pingpong, leaving the rest of the slot, and
starts a TX transfer by handing one pipe to the driver with `data_buf` that
slot, `transfer_size = len`, `pos = 0`, no callback and `short_transfer = 0`. -/
theorem usb_tx_cp_contract (t : Target) (d : usb_driver) (buf : List Nat) (len : Nat)
    (m : Machine) :
    (t.EP0_BUFSIZE < len → usb_tx_cp t d buf len m = (-1, m)) ∧
    (len ≤ t.EP0_BUFSIZE →
      ∃ p : usbd_ep_pipe_state_t,
        (usb_tx_cp t d buf len m).2.log = m.log ++ [usb_event.tx_queue_next p] ∧
        (usb_tx_cp t d buf len m).2.usb.ep0_state.tx = d.usb_tx_queue_next p ∧
        (usb_tx_cp t d buf len m).2.usb.ep0_state.rx = m.usb.ep0_state.rx ∧
        p.data_buf = Ptr.ep0_buf m.usb.ep0_state.tx.pingpong ∧
        p.transfer_size = len ∧ p.pos = 0 ∧ p.callback = none ∧ p.short_transfer = 0 ∧
        p.pingpong = m.usb.ep0_state.tx.pingpong ∧
        (usb_tx_cp t d buf len m).2.usb.ep0_buf =
          m.usb.ep0_buf.set m.usb.ep0_state.tx.pingpong
            (memcpy (m.usb.ep0_buf.getD m.usb.ep0_state.tx.pingpong []) buf len) ∧
        (m.usb.ep0_state.tx.pingpong < m.usb.ep0_buf.length → len ≤ buf.length →
          ((usb_tx_cp t d buf len m).2.usb.ep0_buf.getD m.usb.ep0_state.tx.pingpong []).take len
            = buf.take len ∧
          ((usb_tx_cp t d buf len m).2.usb.ep0_buf.getD m.usb.ep0_state.tx.pingpong []).drop len
            = (m.usb.ep0_buf.getD m.usb.ep0_state.tx.pingpong []).drop len)) := by
  refine ⟨usb_tx_cp_fail t d buf len m, ?_⟩
  intro h
  rw [usb_tx_cp_machine t d buf len m h]
  refine ⟨cp_pipe m.usb.ep0_state.tx len, rfl, rfl, rfl, rfl, rfl, rfl, rfl, rfl, rfl, rfl, ?_⟩
  intro hpp hlen
  simp only []
  rw [getD_set_self _ _ _ hpp]
  exact memcpy_take _ _ _ hlen

/-- Witness of C12 on the reset device with 64-byte slots: 65 bytes are
refused with -1 and nothing changes; 2 bytes are copied to slot 0 and armed. -/
theorem usb_tx_cp_contract_witness :
    usb_tx_cp target32 (driver32 0) (List.replicate 65 7) 65 (machine0 64) =
      (-1, machine0 64) ∧
    ((usb_tx_cp target32 (driver32 0) [5, 6] 2 (machine0 64)).2.usb.ep0_buf.getD 0 []).take 2 =
      [5, 6] :=
  have h1 := usb_tx_cp_contract target32 (driver32 0) (List.replicate 65 7) 65 (machine0 64)
  have h2 := usb_tx_cp_contract target32 (driver32 0) [5, 6] 2 (machine0 64)
  ⟨h1.1 (by decide), by
    obtain ⟨p, -, -, -, -, -, -, -, -, -, -, h⟩ := h2.2 (by decide)
    exact (h (by decide) (by decide)).1⟩

/-! ## The value `usb_tx` returns -/

theorem usb_tx_returns_after_arm (t : Target) (d : usb_driver) (buf : Ptr) (len reqlen : Nat)
    (cb : Option Nat) (cb_data : Ptr) (m : Machine) :
    (usb_tx t d buf len reqlen cb cb_data m).1 =
      size_to_int t (d.usb_tx_queue_next
        (tx_pipe m.usb.ep0_state.tx buf len reqlen cb cb_data)).transfer_size := by
  rw [usb_tx_result, usb_tx_machine]

theorem size_to_int_fits (t : Target) (v : Nat) (h : v < 2 ^ (t.INT_BITS - 1)) :
    size_to_int t v = (v : Int) := by
  have h1 : 2 ^ (t.INT_BITS - 1) ≤ 2 ^ t.INT_BITS :=
    Nat.pow_le_pow_right (by decide) (Nat.sub_le _ _)
  have h2 : v % 2 ^ t.INT_BITS = v := Nat.mod_eq_of_lt (by omega)
  unfold size_to_int
  rw [h2, if_pos h]

/-- On the chunk driver `usb_tx` returns what is left after the first
transaction has been armed: the clamped size less the first chunk.  For a
non-empty transfer on a pipe with `ep_maxsize > 0` that is less than the
clamped size. -/
theorem usb_tx_chunk_result (t : Target) (rxlen : Nat → usb_ep_dir → Nat → Nat) (buf : Ptr)
    (len reqlen : Nat) (cb : Option Nat) (cb_data : Ptr) (m : Machine)
    (hfit : min len reqlen < 2 ^ (t.INT_BITS - 1)) :
    (usb_tx t (chunk_driver t rxlen) buf len reqlen cb cb_data m).1 =
      ((min len reqlen - min (min len reqlen) m.usb.ep0_state.tx.ep_maxsize : Nat) : Int) ∧
    (0 < min len reqlen → 0 < m.usb.ep0_state.tx.ep_maxsize →
      (usb_tx t (chunk_driver t rxlen) buf len reqlen cb cb_data m).1 <
        ((min len reqlen : Nat) : Int)) := by
  have hres : (usb_tx t (chunk_driver t rxlen) buf len reqlen cb cb_data m).1 =
      ((min len reqlen - min (min len reqlen) m.usb.ep0_state.tx.ep_maxsize : Nat) : Int) := by
    rw [usb_tx_returns_after_arm]
    simp only [chunk_driver, chunk_tx_queue_next, tx_pipe]
    exact size_to_int_fits t _ (by omega)
  refine ⟨hres, ?_⟩
  intro h1 h2
  rw [hres]
  have : min len reqlen - min (min len reqlen) m.usb.ep0_state.tx.ep_maxsize <
      min len reqlen := by omega
  exact_mod_cast this

/-- A driver whose arm leaves `transfer_size` as it is never finishes a
non-empty TX transfer: `usb_tx_next` keeps arming. -/
theorem tx_run_never_done (d : usb_driver)
    (hd : ∀ s, (d.usb_tx_queue_next s).transfer_size = s.transfer_size) :
    ∀ (fuel : Nat) (m : Machine), 0 < m.usb.ep0_state.tx.transfer_size →
      tx_run d fuel m = none := by
  intro fuel
  induction fuel with
  | zero => intro m _; rfl
  | succ f ih =>
    intro m h
    obtain ⟨h1, -, h3⟩ := usb_tx_next_more d m h
    have h4 : 0 < (usb_tx_next d m).2.usb.ep0_state.tx.transfer_size := by
      rw [h3, hd]; exact h
    simp [tx_run, h1, ih _ h4]

/-- C13, the code at the failing input: on the chunk driver
`usb_tx(buf, 8, 8, cb, d)` with 8-byte packets hands a pipe of 8 bytes to the
driver and returns 0, not 8; `usb_tx(buf, 100, 200, cb, d)` with 64-byte
packets returns 36, not 100. -/
theorem usb_tx_returns_remainder :
    (usb_tx target32 (driver32 0) (Ptr.addr 1) 8 8 none Ptr.NULL (machine0 8)).1 = 0 ∧
    (tx_arms (usb_tx target32 (driver32 0) (Ptr.addr 1) 8 8 none Ptr.NULL
      (machine0 8)).2.log).map (fun p => p.transfer_size) = [8] ∧
    (usb_tx target32 (driver32 0) (Ptr.addr 1) 100 200 none Ptr.NULL (machine0 64)).1 = 36 ∧
    (tx_arms (usb_tx target32 (driver32 0) (Ptr.addr 1) 100 200 none Ptr.NULL
      (machine0 64)).2.log).map (fun p => p.transfer_size) = [100] := by
  decide

/-! ## Configuration round trip -/

theorem set_configuration_machine (t : Target) (d : usb_driver) (v idx len : Nat)
    (m : Machine) :
    usb_handle_control t d (set_configuration_req v idx len) m =
      (0, { m with usb := { m.usb with config := v % 256,
                                       state := usbd_state.USBD_STATE_CONFIGURED } }) := by
  simp [usb_handle_control, set_configuration_req]

theorem get_configuration_machine (t : Target) (d : usb_driver) (v idx len : Nat)
    (m : Machine) :
    usb_handle_control t d (get_configuration_req v idx len) m =
      usb_tx_cp t d [m.usb.config] 1 m := by
  simp [usb_handle_control, get_configuration_req]

/-- C14: with `EP0_BUFSIZE >= 1` and the TX pingpong naming one of the buffer
slots, a standard SET_CONFIGURATION request with value `v` dispatched through
`usb_handle_control` returns 0, stores `v` reduced to 8 bits as the
configuration, sets the device state to CONFIGURED and arms nothing; a
following standard GET_CONFIGURATION request hands one pipe to the driver, a
reply of exactly 1 byte, not short, in the EP0 buffer slot of the TX
pingpong, and the byte in that slot is the stored configuration, the low 8
bits of `v`. -/
theorem set_get_configuration (t : Target) (d : usb_driver) (v idx len v2 idx2 len2 : Nat)
    (m : Machine) (hbuf : 1 ≤ t.EP0_BUFSIZE)
    (hpp : m.usb.ep0_state.tx.pingpong < m.usb.ep0_buf.length) :
    (usb_handle_control t d (set_configuration_req v idx len) m).1 = 0 ∧
    (usb_handle_control t d (set_configuration_req v idx len) m).2.usb.config = v % 256 ∧
    (usb_handle_control t d (set_configuration_req v idx len) m).2.usb.state =
      usbd_state.USBD_STATE_CONFIGURED ∧
    (usb_handle_control t d (set_configuration_req v idx len) m).2.log = m.log ∧
    (usb_handle_control t d (set_configuration_req v idx len) m).2.usb.ep0_state =
      m.usb.ep0_state ∧
    ∃ p : usbd_ep_pipe_state_t,
      (usb_handle_control t d (get_configuration_req v2 idx2 len2)
        (usb_handle_control t d (set_configuration_req v idx len) m).2).2.log =
        m.log ++ [usb_event.tx_queue_next p] ∧
      p.transfer_size = 1 ∧ p.short_transfer = 0 ∧ p.pos = 0 ∧
      p.data_buf = Ptr.ep0_buf m.usb.ep0_state.tx.pingpong ∧
      ((usb_handle_control t d (get_configuration_req v2 idx2 len2)
        (usb_handle_control t d (set_configuration_req v idx len) m).2).2.usb.ep0_buf.getD
          m.usb.ep0_state.tx.pingpong []).take 1 = [v % 256] ∧
      (usb_handle_control t d (get_configuration_req v2 idx2 len2)
        (usb_handle_control t d (set_configuration_req v idx len) m).2).2.usb.config =
        v % 256 := by
  rw [set_configuration_machine, get_configuration_machine]
  refine ⟨rfl, rfl, rfl, rfl, rfl, ?_⟩
  rw [usb_tx_cp_machine t d _ 1 _ hbuf]
  refine ⟨cp_pipe m.usb.ep0_state.tx 1, rfl, rfl, rfl, rfl, rfl, ?_, rfl⟩
  simp only []
  rw [getD_set_self _ _ _ hpp]
  exact (memcpy_take _ [v % 256] 1 (by simp)).1

/-- Witness of C14 with `v = 3` on the reset device: the reply byte is 3. -/
theorem set_get_configuration_witness :
    ∃ p : usbd_ep_pipe_state_t,
      (usb_handle_control target32 (driver32 0) (get_configuration_req 0 0 1)
        (usb_handle_control target32 (driver32 0) (set_configuration_req 3 0 0)
          (machine0 64)).2).2.log = (machine0 64).log ++ [usb_event.tx_queue_next p] ∧
      p.transfer_size = 1 ∧ p.short_transfer = 0 ∧ p.pos = 0 ∧
      p.data_buf = Ptr.ep0_buf (machine0 64).usb.ep0_state.tx.pingpong ∧
      ((usb_handle_control target32 (driver32 0) (get_configuration_req 0 0 1)
        (usb_handle_control target32 (driver32 0) (set_configuration_req 3 0 0)
          (machine0 64)).2).2.usb.ep0_buf.getD
          (machine0 64).usb.ep0_state.tx.pingpong []).take 1 = [3 % 256] ∧
      (usb_handle_control target32 (driver32 0) (get_configuration_req 0 0 1)
        (usb_handle_control target32 (driver32 0) (set_configuration_req 3 0 0)
          (machine0 64)).2).2.usb.config = 3 % 256 :=
  (set_get_configuration target32 (driver32 0) 3 0 0 0 0 1 (machine0 64) (by decide)
    (by decide)).2.2.2.2.2

/-! ## Toggle, pingpong and byte accounting of the queuer -/

theorem xor_one_bit (b : Nat) (h : b = 0 ∨ b = 1) : b ^^^ 1 = 1 - b := by
  rcases h with h | h <;> subst h <;> rfl

/-- C15: for a TX pipe whose toggle is 0 or 1, `usb_tx_next` writes the
negated toggle in all three outcomes: every pipe it hands to the driver
carries `1 - toggle`, and with a driver whose arm leaves the toggle alone the
toggle after the call is `1 - toggle`, whether the next chunk was armed, the
trailing short packet was armed, or the transfer completed. -/
theorem usb_tx_next_toggle (d : usb_driver) (m : Machine)
    (htog : m.usb.ep0_state.tx.data01 = 0 ∨ m.usb.ep0_state.tx.data01 = 1)
    (hd : ∀ s, (d.usb_tx_queue_next s).data01 = s.data01) :
    (usb_tx_next d m).2.usb.ep0_state.tx.data01 = 1 - m.usb.ep0_state.tx.data01 ∧
    (m.usb.ep0_state.tx.data01 = 0 → (usb_tx_next d m).2.usb.ep0_state.tx.data01 = 1) ∧
    (m.usb.ep0_state.tx.data01 = 1 → (usb_tx_next d m).2.usb.ep0_state.tx.data01 = 0) ∧
    (∀ p ∈ tx_arms ((usb_tx_next d m).2.log.drop m.log.length),
      p.data01 = 1 - m.usb.ep0_state.tx.data01) := by
  have hx := xor_one_bit _ htog
  have hmain : (usb_tx_next d m).2.usb.ep0_state.tx.data01 = 1 - m.usb.ep0_state.tx.data01 ∧
      (∀ p ∈ tx_arms ((usb_tx_next d m).2.log.drop m.log.length),
        p.data01 = 1 - m.usb.ep0_state.tx.data01) := by
    unfold usb_tx_next
    by_cases h1 : 0 < m.usb.ep0_state.tx.transfer_size
    · simp [set_tx, tx_queue_next, emit, h1, hd, hx, tx_arms]
    · by_cases h2 : m.usb.ep0_state.tx.short_transfer = 0
      · simp only [set_tx, gt_iff_lt, h1, if_false, h2, ne_eq, not_true_eq_false, run_callback]
        cases m.usb.ep0_state.tx.callback <;> simp [emit, hx, tx_arms]
      · simp [set_tx, tx_queue_next, emit, h1, h2, hd, hx, tx_arms]
  refine ⟨hmain.1, ?_, ?_, hmain.2⟩
  · intro h0; rw [hmain.1, h0]
  · intro h0; rw [hmain.1, h0]

/-- Witness of C15 on the chunk driver: a pipe with data left and toggle 0
has toggle 1 after the call. -/
theorem usb_tx_next_toggle_witness :
    (usb_tx_next (driver32 0)
      (set_tx (machine0 8) { pipe0 8 with transfer_size := 8 })).2.usb.ep0_state.tx.data01 = 1 :=
  (usb_tx_next_toggle (driver32 0) (set_tx (machine0 8) { pipe0 8 with transfer_size := 8 })
    (Or.inl rfl) (fun _ => rfl)).2.1 rfl

/-- C16: for an RX pipe whose pingpong index is 0 or 1, `usb_rx_next` writes
the other index, `1 - pingpong`, whether it reports completion or arms the
next chunk (the pipe handed to the driver carries it, and with a driver whose
arm leaves the pingpong alone it is the index after the call).  The received
length is read for the old index: the call gives the same result with any
driver that reports the same length for endpoint 0, RX, old index. -/
theorem usb_rx_next_pingpong (t : Target) (d : usb_driver) (m : Machine)
    (hpp : m.usb.ep0_state.rx.pingpong = 0 ∨ m.usb.ep0_state.rx.pingpong = 1)
    (hd : ∀ s, (d.usb_rx_queue_next s).pingpong = s.pingpong) :
    (usb_rx_next t d m).2.usb.ep0_state.rx.pingpong = 1 - m.usb.ep0_state.rx.pingpong ∧
    (∀ p ∈ rx_arms ((usb_rx_next t d m).2.log.drop m.log.length),
      p.pingpong = 1 - m.usb.ep0_state.rx.pingpong) ∧
    (∀ f : Nat → usb_ep_dir → Nat → Nat,
      f 0 usb_ep_dir.USB_EP_RX m.usb.ep0_state.rx.pingpong =
        d.usb_ep_get_transfer_size 0 usb_ep_dir.USB_EP_RX m.usb.ep0_state.rx.pingpong →
      usb_rx_next t { d with usb_ep_get_transfer_size := f } m = usb_rx_next t d m) := by
  have hx := xor_one_bit _ hpp
  refine ⟨?_, ?_, ?_⟩
  · unfold usb_rx_next
    by_cases hc : d.usb_ep_get_transfer_size 0 usb_ep_dir.USB_EP_RX m.usb.ep0_state.rx.pingpong <
        m.usb.ep0_state.rx.ep_maxsize ∨
        size_sub t m.usb.ep0_state.rx.transfer_size
          (d.usb_ep_get_transfer_size 0 usb_ep_dir.USB_EP_RX m.usb.ep0_state.rx.pingpong) = 0
    · simp only [hc, if_true, run_callback, set_rx]
      cases m.usb.ep0_state.rx.callback <;> simp [emit, hx]
    · simp [hc, rx_queue_next, emit, set_rx, hd, hx]
  · unfold usb_rx_next
    by_cases hc : d.usb_ep_get_transfer_size 0 usb_ep_dir.USB_EP_RX m.usb.ep0_state.rx.pingpong <
        m.usb.ep0_state.rx.ep_maxsize ∨
        size_sub t m.usb.ep0_state.rx.transfer_size
          (d.usb_ep_get_transfer_size 0 usb_ep_dir.USB_EP_RX m.usb.ep0_state.rx.pingpong) = 0
    · simp only [hc, if_true, run_callback, set_rx]
      cases m.usb.ep0_state.rx.callback <;> simp [emit, rx_arms]
    · simp [hc, rx_queue_next, emit, set_rx, hx, rx_arms]
  · intro f hf
    simp only [usb_rx_next, rx_queue_next, hf]

/-- Witness of C16 on the chunk driver: after a full first chunk of a
128-byte transfer the pingpong index 0 has become 1. -/
theorem usb_rx_next_pingpong_witness :
    (usb_rx_next target32 (driver32 64)
      (set_rx (machine0 64) pipe_rx128)).2.usb.ep0_state.rx.pingpong = 1 - 0 :=
  (usb_rx_next_pingpong target32 (driver32 64) (set_rx (machine0 64) pipe_rx128)
    (Or.inl rfl) (fun _ => rfl)).1

/-! ## The address commit -/

theorem usb_tx_cp_set_addrs (t : Target) (d : usb_driver) (buf : List Nat) (len : Nat)
    (m : Machine) : set_addrs (usb_tx_cp t d buf len m).2.log = set_addrs m.log := by
  by_cases h : len ≤ t.EP0_BUFSIZE
  · rw [usb_tx_cp_machine t d buf len m h]
    simp [set_addrs_append, set_addrs]
  · rw [usb_tx_cp_fail t d buf len m (Nat.lt_of_not_le h)]

theorem usb_handle_control_set_addrs (t : Target) (d : usb_driver) (req : usb_ctrl_req_t)
    (m : Machine) : set_addrs (usb_handle_control t d req m).2.log = set_addrs m.log := by
  unfold usb_handle_control
  split_ifs <;> first | rfl | exact usb_tx_cp_set_addrs t d _ _ m

theorem usb_tx_next_set_addrs (d : usb_driver) (m : Machine) :
    set_addrs (usb_tx_next d m).2.log = set_addrs m.log := by
  unfold usb_tx_next
  by_cases h1 : 0 < m.usb.ep0_state.tx.transfer_size
  · simp [set_tx, tx_queue_next, emit, h1, set_addrs_append, set_addrs]
  · by_cases h2 : m.usb.ep0_state.tx.short_transfer = 0
    · simp only [set_tx, gt_iff_lt, h1, if_false, h2, ne_eq, not_true_eq_false, run_callback]
      cases m.usb.ep0_state.tx.callback <;> simp [emit, set_addrs_append, set_addrs]
    · simp [set_tx, tx_queue_next, emit, h1, h2, set_addrs_append, set_addrs]

theorem usb_rx_next_set_addrs (t : Target) (d : usb_driver) (m : Machine) :
    set_addrs (usb_rx_next t d m).2.log = set_addrs m.log := by
  unfold usb_rx_next
  by_cases hc : d.usb_ep_get_transfer_size 0 usb_ep_dir.USB_EP_RX m.usb.ep0_state.rx.pingpong <
      m.usb.ep0_state.rx.ep_maxsize ∨
      size_sub t m.usb.ep0_state.rx.transfer_size
        (d.usb_ep_get_transfer_size 0 usb_ep_dir.USB_EP_RX m.usb.ep0_state.rx.pingpong) = 0
  · simp only [hc, if_true, run_callback, set_rx]
    cases m.usb.ep0_state.rx.callback <;> simp [emit, set_addrs_append, set_addrs]
  · simp [hc, rx_queue_next, emit, set_rx, set_addrs_append, set_addrs]

theorem status_or_done_set_addrs (t : Target) (d : usb_driver) (stat : usb_xfer_info)
    (m : Machine) :
    (m.usb.ctrl_state = usbd_ctrl_state.USBD_CTRL_STATE_DATA →
      set_addrs (status_or_done t d stat m).log = set_addrs m.log) ∧
    (m.usb.ctrl_state ≠ usbd_ctrl_state.USBD_CTRL_STATE_DATA →
      m.usb.state ≠ usbd_state.USBD_STATE_SETTING_ADDRESS →
      set_addrs (status_or_done t d stat m).log = set_addrs m.log) ∧
    (m.usb.ctrl_state ≠ usbd_ctrl_state.USBD_CTRL_STATE_DATA →
      m.usb.state = usbd_state.USBD_STATE_SETTING_ADDRESS →
      set_addrs (status_or_done t d stat m).log = set_addrs m.log ++ [m.usb.address] ∧
      (status_or_done t d stat m).usb.state = usbd_state.USBD_STATE_ADDRESS) := by
  refine ⟨?_, ?_, ?_⟩
  · intro hc
    unfold status_or_done
    cases hp : stat.pid <;>
      simp [hc, hp, set_ctrl_state, usb_rx_machine, usb_tx_status, set_rx, set_tx,
        set_addrs_append, set_addrs]
  · intro hc hs
    rw [status_or_done_not_data t d stat m hc, usb_setup_control_setup_pipe]
    have h := (commit_address_log
      (set_ctrl_state m usbd_ctrl_state.USBD_CTRL_STATE_IDLE)).1
    simp only [set_addrs_append, h]
    simp [set_ctrl_state, hs, set_addrs]
  · intro hc hs
    rw [status_or_done_not_data t d stat m hc, usb_setup_control_setup_pipe]
    have h := commit_address_log (set_ctrl_state m usbd_ctrl_state.USBD_CTRL_STATE_IDLE)
    constructor
    · simp only [set_addrs_append, h.1]
      simp [set_ctrl_state, hs, set_addrs]
    · exact h.2.1 hs

theorem setup_step_set_addrs (t : Target) (d : usb_driver) (stat : usb_xfer_info) (m : Machine)
    (hp : stat.pid = usb_pid.USB_PID_SETUP) :
    set_addrs (usb_handle_control_ep t d stat m).log = set_addrs m.log := by
  have h := usb_handle_control_set_addrs t d stat.data (emit m usb_event.clear_transfers)
  have h2 : set_addrs (emit m usb_event.clear_transfers).log = set_addrs m.log := by
    simp [emit, set_addrs_append, set_addrs]
  rw [h2] at h
  simp only [emit] at h
  simp only [usb_handle_control_ep, hp]
  split_ifs
  · simp [emit, set_addrs_append, set_addrs, usb_tx_status, set_ctrl_state, h]
  · simp [emit, set_addrs_append, set_addrs, usb_setup_control_setup_pipe, h]
  · simp [emit, set_addrs_append, set_addrs, set_ctrl_state, h]

theorem in_step_set_addrs (t : Target) (d : usb_driver) (stat : usb_xfer_info) (m : Machine)
    (hp : stat.pid = usb_pid.USB_PID_IN) :
    ((usb_tx_next d m).1 = 0 ∧ m.usb.ctrl_state ≠ usbd_ctrl_state.USBD_CTRL_STATE_DATA ∧
        m.usb.state = usbd_state.USBD_STATE_SETTING_ADDRESS →
      set_addrs (usb_handle_control_ep t d stat m).log = set_addrs m.log ++ [m.usb.address] ∧
      (usb_handle_control_ep t d stat m).usb.state = usbd_state.USBD_STATE_ADDRESS) ∧
    (¬ ((usb_tx_next d m).1 = 0 ∧ m.usb.ctrl_state ≠ usbd_ctrl_state.USBD_CTRL_STATE_DATA ∧
        m.usb.state = usbd_state.USBD_STATE_SETTING_ADDRESS) →
      set_addrs (usb_handle_control_ep t d stat m).log = set_addrs m.log) := by
  by_cases h0 : (usb_tx_next d m).1 = 0
  · have hep : usb_handle_control_ep t d stat m = status_or_done t d stat (usb_tx_next d m).2 := by
      simp only [usb_handle_control_ep, hp, h0, ne_eq, not_true_eq_false, if_false]
    have hl := usb_tx_next_set_addrs d m
    have hm := usb_tx_next_done d m h0
    have hc : (usb_tx_next d m).2.usb.ctrl_state = m.usb.ctrl_state := by rw [hm]
    have hs : (usb_tx_next d m).2.usb.state = m.usb.state := by rw [hm]
    have ha : (usb_tx_next d m).2.usb.address = m.usb.address := by rw [hm]
    obtain ⟨k1, k2, k3⟩ := status_or_done_set_addrs t d stat (usb_tx_next d m).2
    simp only [hc, hs, ha, hl] at k1 k2 k3
    rw [hep]
    constructor
    · rintro ⟨-, h1, h2⟩
      exact k3 h1 h2
    · intro hn
      by_cases h1 : m.usb.ctrl_state = usbd_ctrl_state.USBD_CTRL_STATE_DATA
      · exact k1 h1
      · exact k2 h1 (fun h2 => hn ⟨h0, h1, h2⟩)
  · constructor
    · rintro ⟨h, -, -⟩
      exact absurd h h0
    · intro _
      have hep : usb_handle_control_ep t d stat m = (usb_tx_next d m).2 := by
        simp only [usb_handle_control_ep, hp, h0, ne_eq, not_false_eq_true, if_true]
      rw [hep, usb_tx_next_set_addrs]

theorem out_step_set_addrs (t : Target) (d : usb_driver) (stat : usb_xfer_info) (m : Machine)
    (hp : stat.pid = usb_pid.USB_PID_OUT) :
    ((usb_rx_next t d m).1 = 0 ∧ m.usb.ctrl_state ≠ usbd_ctrl_state.USBD_CTRL_STATE_DATA ∧
        m.usb.state = usbd_state.USBD_STATE_SETTING_ADDRESS →
      set_addrs (usb_handle_control_ep t d stat m).log = set_addrs m.log ++ [m.usb.address] ∧
      (usb_handle_control_ep t d stat m).usb.state = usbd_state.USBD_STATE_ADDRESS) ∧
    (¬ ((usb_rx_next t d m).1 = 0 ∧ m.usb.ctrl_state ≠ usbd_ctrl_state.USBD_CTRL_STATE_DATA ∧
        m.usb.state = usbd_state.USBD_STATE_SETTING_ADDRESS) →
      set_addrs (usb_handle_control_ep t d stat m).log = set_addrs m.log) := by
  by_cases h0 : (usb_rx_next t d m).1 = 0
  · have hep : usb_handle_control_ep t d stat m =
        status_or_done t d stat (usb_rx_next t d m).2 := by
      simp only [usb_handle_control_ep, hp, h0, ne_eq, not_true_eq_false, if_false]
    have hl := usb_rx_next_set_addrs t d m
    have hm := usb_rx_next_done t d m h0
    have hc : (usb_rx_next t d m).2.usb.ctrl_state = m.usb.ctrl_state := by rw [hm]
    have hs : (usb_rx_next t d m).2.usb.state = m.usb.state := by rw [hm]
    have ha : (usb_rx_next t d m).2.usb.address = m.usb.address := by rw [hm]
    obtain ⟨k1, k2, k3⟩ := status_or_done_set_addrs t d stat (usb_rx_next t d m).2
    simp only [hc, hs, ha, hl] at k1 k2 k3
    rw [hep]
    constructor
    · rintro ⟨-, h1, h2⟩
      exact k3 h1 h2
    · intro hn
      by_cases h1 : m.usb.ctrl_state = usbd_ctrl_state.USBD_CTRL_STATE_DATA
      · exact k1 h1
      · exact k2 h1 (fun h2 => hn ⟨h0, h1, h2⟩)
  · constructor
    · rintro ⟨h, -, -⟩
      exact absurd h h0
    · intro _
      have hep : usb_handle_control_ep t d stat m = (usb_rx_next t d m).2 := by
        simp only [usb_handle_control_ep, hp, h0, ne_eq, not_false_eq_true, if_true]
      rw [hep, usb_rx_next_set_addrs]

/-- C17: in one step of `usb_handle_control_ep` the address commit
`usb_set_addr` is called exactly when the event is an IN or OUT completion
whose queuer returns 0, `ctrl_state` before the step is not DATA and the
device state before the step is SETTING_ADDRESS.  Then it is called once,
with the stored pending address, and the device state afterwards is ADDRESS.
In every other step, in particular every SETUP step and every step with an
unknown transaction kind, the log gains no `usb_set_addr`. -/
theorem address_commit_point (t : Target) (d : usb_driver) (stat : usb_xfer_info)
    (m : Machine) :
    ((((stat.pid = usb_pid.USB_PID_IN ∧ (usb_tx_next d m).1 = 0) ∨
        (stat.pid = usb_pid.USB_PID_OUT ∧ (usb_rx_next t d m).1 = 0)) ∧
        m.usb.ctrl_state ≠ usbd_ctrl_state.USBD_CTRL_STATE_DATA ∧
        m.usb.state = usbd_state.USBD_STATE_SETTING_ADDRESS) →
      set_addrs (usb_handle_control_ep t d stat m).log = set_addrs m.log ++ [m.usb.address] ∧
      (usb_handle_control_ep t d stat m).usb.state = usbd_state.USBD_STATE_ADDRESS) ∧
    (¬ (((stat.pid = usb_pid.USB_PID_IN ∧ (usb_tx_next d m).1 = 0) ∨
        (stat.pid = usb_pid.USB_PID_OUT ∧ (usb_rx_next t d m).1 = 0)) ∧
        m.usb.ctrl_state ≠ usbd_ctrl_state.USBD_CTRL_STATE_DATA ∧
        m.usb.state = usbd_state.USBD_STATE_SETTING_ADDRESS) →
      set_addrs (usb_handle_control_ep t d stat m).log = set_addrs m.log) ∧
    (set_addrs (usb_handle_control_ep t d stat m).log ≠ set_addrs m.log ↔
      (((stat.pid = usb_pid.USB_PID_IN ∧ (usb_tx_next d m).1 = 0) ∨
        (stat.pid = usb_pid.USB_PID_OUT ∧ (usb_rx_next t d m).1 = 0)) ∧
        m.usb.ctrl_state ≠ usbd_ctrl_state.USBD_CTRL_STATE_DATA ∧
        m.usb.state = usbd_state.USBD_STATE_SETTING_ADDRESS)) ∧
    (stat.pid = usb_pid.USB_PID_SETUP →
      set_addrs (usb_handle_control_ep t d stat m).log = set_addrs m.log) ∧
    (∀ n, stat.pid = usb_pid.other n → usb_handle_control_ep t d stat m = m) := by
  have key : ((((stat.pid = usb_pid.USB_PID_IN ∧ (usb_tx_next d m).1 = 0) ∨
        (stat.pid = usb_pid.USB_PID_OUT ∧ (usb_rx_next t d m).1 = 0)) ∧
        m.usb.ctrl_state ≠ usbd_ctrl_state.USBD_CTRL_STATE_DATA ∧
        m.usb.state = usbd_state.USBD_STATE_SETTING_ADDRESS) →
      set_addrs (usb_handle_control_ep t d stat m).log = set_addrs m.log ++ [m.usb.address] ∧
      (usb_handle_control_ep t d stat m).usb.state = usbd_state.USBD_STATE_ADDRESS) ∧
    (¬ (((stat.pid = usb_pid.USB_PID_IN ∧ (usb_tx_next d m).1 = 0) ∨
        (stat.pid = usb_pid.USB_PID_OUT ∧ (usb_rx_next t d m).1 = 0)) ∧
        m.usb.ctrl_state ≠ usbd_ctrl_state.USBD_CTRL_STATE_DATA ∧
        m.usb.state = usbd_state.USBD_STATE_SETTING_ADDRESS) →
      set_addrs (usb_handle_control_ep t d stat m).log = set_addrs m.log) := by
    cases hp : stat.pid with
    | USB_PID_SETUP =>
      refine ⟨?_, fun _ => setup_step_set_addrs t d stat m hp⟩
      rintro ⟨h | h, -, -⟩ <;> exact absurd h.1 (by simp)
    | USB_PID_IN =>
      obtain ⟨k1, k2⟩ := in_step_set_addrs t d stat m hp
      constructor
      · rintro ⟨h | h, h1, h2⟩
        · exact k1 ⟨h.2, h1, h2⟩
        · exact absurd h.1 (by simp)
      · intro hn
        exact k2 (fun h => hn ⟨Or.inl ⟨rfl, h.1⟩, h.2.1, h.2.2⟩)
    | USB_PID_OUT =>
      obtain ⟨k1, k2⟩ := out_step_set_addrs t d stat m hp
      constructor
      · rintro ⟨h | h, h1, h2⟩
        · exact absurd h.1 (by simp)
        · exact k1 ⟨h.2, h1, h2⟩
      · intro hn
        exact k2 (fun h => hn ⟨Or.inr ⟨rfl, h.1⟩, h.2.1, h.2.2⟩)
    | other n =>
      constructor
      · rintro ⟨h | h, -, -⟩ <;> exact absurd h.1 (by simp)
      · intro _
        simp only [usb_handle_control_ep, hp]
  refine ⟨key.1, key.2, ?_, ?_, ?_⟩
  · constructor
    · intro hne
      by_contra hn
      exact hne (key.2 hn)
    · intro hc heq
      have := (key.1 hc).1
      rw [heq] at this
      simp at this
  · intro hp
    exact setup_step_set_addrs t d stat m hp
  · intro n hp
    simp only [usb_handle_control_ep, hp]

/-- Witness of C17: on a device that has accepted SET_ADDRESS(0x45) and is in
the STATUS stage, the IN completion of the status transaction commits 0x45
and leaves the device in ADDRESS. -/
theorem address_commit_point_witness :
    set_addrs (usb_handle_control_ep target32 (driver32 0) in_xfer
      { (machine0 64) with usb := { (machine0 64).usb with
          address := 0x45, state := usbd_state.USBD_STATE_SETTING_ADDRESS,
          ctrl_state := usbd_ctrl_state.USBD_CTRL_STATE_STATUS } }).log = [] ++ [0x45] ∧
    (usb_handle_control_ep target32 (driver32 0) in_xfer
      { (machine0 64) with usb := { (machine0 64).usb with
          address := 0x45, state := usbd_state.USBD_STATE_SETTING_ADDRESS,
          ctrl_state := usbd_ctrl_state.USBD_CTRL_STATE_STATUS } }).usb.state =
      usbd_state.USBD_STATE_ADDRESS :=
  (address_commit_point target32 (driver32 0) in_xfer
      { (machine0 64) with usb := { (machine0 64).usb with
          address := 0x45, state := usbd_state.USBD_STATE_SETTING_ADDRESS,
          ctrl_state := usbd_ctrl_state.USBD_CTRL_STATE_STATUS } }).1
    ⟨Or.inl ⟨rfl, by decide⟩, by decide, rfl⟩

/-! ## The RX toggle and the RX byte count -/

theorem xor_one_ne (b : Nat) : b ^^^ 1 ≠ b := by
  intro h
  have h2 : b ^^^ 1 = b ^^^ 0 := by rw [h, Nat.xor_zero]
  exact absurd (Nat.xor_right_injective h2) (by decide)

theorem usb_rx_next_more (t : Target) (d : usb_driver) (m : Machine)
    (h : (usb_rx_next t d m).1 = 1) :
    (usb_rx_next t d m).2 =
      { usb := { m.usb with ep0_state := { m.usb.ep0_state with
                   rx := d.usb_rx_queue_next
                     (rx_accounted t (rx_thislen d m) m.usb.ep0_state.rx) } },
        log := m.log ++ [usb_event.rx_queue_next
                     (rx_accounted t (rx_thislen d m) m.usb.ep0_state.rx)] } := by
  unfold usb_rx_next at h ⊢
  by_cases hc : d.usb_ep_get_transfer_size 0 usb_ep_dir.USB_EP_RX m.usb.ep0_state.rx.pingpong <
      m.usb.ep0_state.rx.ep_maxsize ∨
      size_sub t m.usb.ep0_state.rx.transfer_size
        (d.usb_ep_get_transfer_size 0 usb_ep_dir.USB_EP_RX m.usb.ep0_state.rx.pingpong) = 0
  · simp [hc] at h
  · simp [hc, rx_queue_next, emit, set_rx, rx_accounted, rx_thislen]

/-- C18, counterexample: a full first chunk of 64 bytes of a 128-byte
transfer makes `usb_rx_next` return 1, and the RX toggle, DATA0 before the
call, is DATA1 in the pipe handed to the driver and after the call. -/
theorem usb_rx_next_toggle_counterexample :
    (usb_rx_next target32 (driver32 64) (set_rx (machine0 64) pipe_rx128)).1 = 1 ∧
    (set_rx (machine0 64) pipe_rx128).usb.ep0_state.rx.data01 = 0 ∧
    (usb_rx_next target32 (driver32 64)
      (set_rx (machine0 64) pipe_rx128)).2.usb.ep0_state.rx.data01 = 1 ∧
    (rx_arms (usb_rx_next target32 (driver32 64)
      (set_rx (machine0 64) pipe_rx128)).2.log).map (fun p => p.data01) = [1] := by
  decide

/-- C18, amended: `usb_rx_next` flips the RX data toggle in both branches.
When it reports completion (returns 0) the toggle after the call is the
flipped one; when it reports more data pending (returns 1) the one pipe it
hands to the driver carries the flipped toggle, and the pipe after the call
is what the driver's arm made of it.  The flipped toggle always differs from
the toggle before the call, and is its negation for a toggle of 0 or 1. -/
theorem usb_rx_next_toggle (t : Target) (d : usb_driver) (m : Machine) :
    ((usb_rx_next t d m).1 = 0 →
      (usb_rx_next t d m).2.usb.ep0_state.rx.data01 = m.usb.ep0_state.rx.data01 ^^^ 1) ∧
    ((usb_rx_next t d m).1 = 1 →
      ∃ p : usbd_ep_pipe_state_t,
        (usb_rx_next t d m).2.log = m.log ++ [usb_event.rx_queue_next p] ∧
        (usb_rx_next t d m).2.usb.ep0_state.rx = d.usb_rx_queue_next p ∧
        p.data01 = m.usb.ep0_state.rx.data01 ^^^ 1) ∧
    m.usb.ep0_state.rx.data01 ^^^ 1 ≠ m.usb.ep0_state.rx.data01 ∧
    (m.usb.ep0_state.rx.data01 = 0 ∨ m.usb.ep0_state.rx.data01 = 1 →
      m.usb.ep0_state.rx.data01 ^^^ 1 = 1 - m.usb.ep0_state.rx.data01) := by
  refine ⟨?_, ?_, xor_one_ne _, xor_one_bit _⟩
  · intro h
    rw [usb_rx_next_done t d m h]
    rfl
  · intro h
    rw [usb_rx_next_more t d m h]
    exact ⟨_, rfl, rfl, rfl⟩

/-- Witness of the amended C18 on the chunk driver in the branch that returns
1: the armed pipe and the pipe after the call have toggle 0 xor 1. -/
theorem usb_rx_next_toggle_witness :
    ∃ p : usbd_ep_pipe_state_t,
      (usb_rx_next target32 (driver32 64) (set_rx (machine0 64) pipe_rx128)).2.log =
        (set_rx (machine0 64) pipe_rx128).log ++ [usb_event.rx_queue_next p] ∧
      (usb_rx_next target32 (driver32 64) (set_rx (machine0 64) pipe_rx128)).2.usb.ep0_state.rx =
        (driver32 64).usb_rx_queue_next p ∧
      p.data01 = (set_rx (machine0 64) pipe_rx128).usb.ep0_state.rx.data01 ^^^ 1 :=
  (usb_rx_next_toggle target32 (driver32 64) (set_rx (machine0 64) pipe_rx128)).2.1
    (by decide)

theorem size_sum_invariant (t : Target) (ts pos n : Nat) :
    size_add t (size_sub t ts n) (size_add t pos n) = size_add t ts pos := by
  unfold size_add size_sub
  have hW : 0 < 2 ^ t.SIZE_BITS := Nat.two_pow_pos _
  generalize 2 ^ t.SIZE_BITS = W at hW
  rw [← Nat.add_mod]
  have hdm := Nat.div_add_mod n W
  have hlt := Nat.mod_lt n hW
  have h : ts + (W - n % W) + (pos + n) = (ts + pos) + W * (n / W + 1) := by
    rw [Nat.mul_add, Nat.mul_one]
    omega
  rw [h, Nat.add_mul_mod_self_left]

/-- C19, counterexample: an RX pipe expecting 10 more bytes receives a full
packet of 64 bytes; `transfer_size` wraps to 2^32 - 54, more than the 10
before the call, and `usb_rx_next` returns 1 and arms another transaction. -/
theorem usb_rx_next_size_counterexample :
    (set_rx (machine0 64) pipe_rx10).usb.ep0_state.rx.transfer_size = 10 ∧
    (usb_rx_next target32 (driver32 64)
      (set_rx (machine0 64) pipe_rx10)).2.usb.ep0_state.rx.transfer_size = 4294967242 ∧
    ¬ ((usb_rx_next target32 (driver32 64)
      (set_rx (machine0 64) pipe_rx10)).2.usb.ep0_state.rx.transfer_size ≤
        (set_rx (machine0 64) pipe_rx10).usb.ep0_state.rx.transfer_size) ∧
    (usb_rx_next target32 (driver32 64) (set_rx (machine0 64) pipe_rx10)).1 = 1 := by
  decide

/-- C19, amended: with `size_t` arithmetic modulo `2 ^ SIZE_BITS`, the RX
pipe `usb_rx_next` leaves (after a call that returns 0) or hands to the
driver (in a call that returns 1) has, for a received length `n` that does
not exceed `transfer_size`, the remaining count `transfer_size - n`, which is
not more than before; and for every `n` the sum `transfer_size + pos`, taken
in `size_t`, is the same as before the call (the plain sum when it does not
wrap). -/
theorem usb_rx_next_accounting (t : Target) (d : usb_driver) (m : Machine) :
    ((usb_rx_next t d m).1 = 0 →
      (usb_rx_next t d m).2.usb.ep0_state.rx =
        rx_accounted t (rx_thislen d m) m.usb.ep0_state.rx) ∧
    ((usb_rx_next t d m).1 = 1 →
      (usb_rx_next t d m).2.log = m.log ++ [usb_event.rx_queue_next
        (rx_accounted t (rx_thislen d m) m.usb.ep0_state.rx)] ∧
      (usb_rx_next t d m).2.usb.ep0_state.rx = d.usb_rx_queue_next
        (rx_accounted t (rx_thislen d m) m.usb.ep0_state.rx)) ∧
    (rx_thislen d m ≤ m.usb.ep0_state.rx.transfer_size →
      m.usb.ep0_state.rx.transfer_size < 2 ^ t.SIZE_BITS →
      (rx_accounted t (rx_thislen d m) m.usb.ep0_state.rx).transfer_size =
        m.usb.ep0_state.rx.transfer_size - rx_thislen d m ∧
      (rx_accounted t (rx_thislen d m) m.usb.ep0_state.rx).transfer_size ≤
        m.usb.ep0_state.rx.transfer_size) ∧
    size_add t (rx_accounted t (rx_thislen d m) m.usb.ep0_state.rx).transfer_size
        (rx_accounted t (rx_thislen d m) m.usb.ep0_state.rx).pos =
      size_add t m.usb.ep0_state.rx.transfer_size m.usb.ep0_state.rx.pos ∧
    (rx_thislen d m ≤ m.usb.ep0_state.rx.transfer_size →
      m.usb.ep0_state.rx.transfer_size + m.usb.ep0_state.rx.pos < 2 ^ t.SIZE_BITS →
      (rx_accounted t (rx_thislen d m) m.usb.ep0_state.rx).transfer_size +
        (rx_accounted t (rx_thislen d m) m.usb.ep0_state.rx).pos =
      m.usb.ep0_state.rx.transfer_size + m.usb.ep0_state.rx.pos) := by
  refine ⟨?_, ?_, ?_, ?_, ?_⟩
  · intro h
    rw [usb_rx_next_done t d m h]
  · intro h
    rw [usb_rx_next_more t d m h]
    exact ⟨rfl, rfl⟩
  · intro h1 h2
    have h3 := size_sub_exact t _ _ h1 h2
    simp only [rx_accounted]
    rw [h3]
    exact ⟨rfl, Nat.sub_le _ _⟩
  · simp only [rx_accounted]
    exact size_sum_invariant t _ _ _
  · intro h1 h2
    have h3 := size_sub_exact t _ _ h1 (by omega)
    have h4 := size_add_exact t m.usb.ep0_state.rx.pos (rx_thislen d m) (by omega)
    simp only [rx_accounted]
    rw [h3, h4]
    omega

/-- Witness of the amended C19: 64 of 128 expected bytes arrive; 64 remain
and 64 are accounted in `pos`. -/
theorem usb_rx_next_accounting_witness :
    (rx_accounted target32 (rx_thislen (driver32 64) (set_rx (machine0 64) pipe_rx128))
      (set_rx (machine0 64) pipe_rx128).usb.ep0_state.rx).transfer_size =
        (set_rx (machine0 64) pipe_rx128).usb.ep0_state.rx.transfer_size -
          rx_thislen (driver32 64) (set_rx (machine0 64) pipe_rx128) ∧
    (rx_accounted target32 (rx_thislen (driver32 64) (set_rx (machine0 64) pipe_rx128))
      (set_rx (machine0 64) pipe_rx128).usb.ep0_state.rx).transfer_size ≤
        (set_rx (machine0 64) pipe_rx128).usb.ep0_state.rx.transfer_size :=
  (usb_rx_next_accounting target32 (driver32 64) (set_rx (machine0 64) pipe_rx128)).2.2.1
    (by decide) (by decide)

/-! ## The fields the dispatcher reads -/

/-- C20: `usb_handle_control` reads only the type, the request code and the
value of a SETUP packet.  Two requests that agree on these give the same
return value and the same machine afterwards (device state, buffer slots, TX
pipe and log), whatever their index and length fields.  The reply is not
clamped to the requested length: for a standard GET_STATUS the pipe handed
to the driver has 2 bytes, for GET_CONFIGURATION and GET_INTERFACE 1 byte,
never short, for every length field. -/
theorem usb_handle_control_index_length (t : Target) (d : usb_driver)
    (req1 req2 : usb_ctrl_req_t) (m : Machine)
    (htype : req1.type = req2.type) (hreq : req1.request = req2.request)
    (hval : req1.value = req2.value) :
    usb_handle_control t d req1 m = usb_handle_control t d req2 m ∧
    (req1.type = usb_ctrl_req_type.USB_CTRL_REQ_STD →
      req1.request = USB_CTRL_REQ_GET_STATUS → 2 ≤ t.EP0_BUFSIZE →
      (usb_handle_control t d req2 m).2.log =
        m.log ++ [usb_event.tx_queue_next (cp_pipe m.usb.ep0_state.tx 2)] ∧
      (cp_pipe m.usb.ep0_state.tx 2).transfer_size = 2 ∧
      (cp_pipe m.usb.ep0_state.tx 2).short_transfer = 0) ∧
    (req1.type = usb_ctrl_req_type.USB_CTRL_REQ_STD →
      req1.request = USB_CTRL_REQ_GET_CONFIGURATION ∨
        req1.request = USB_CTRL_REQ_GET_INTERFACE → 1 ≤ t.EP0_BUFSIZE →
      (usb_handle_control t d req2 m).2.log =
        m.log ++ [usb_event.tx_queue_next (cp_pipe m.usb.ep0_state.tx 1)] ∧
      (cp_pipe m.usb.ep0_state.tx 1).transfer_size = 1 ∧
      (cp_pipe m.usb.ep0_state.tx 1).short_transfer = 0) := by
  refine ⟨?_, ?_, ?_⟩
  · simp only [usb_handle_control, htype, hreq, hval]
  · intro h1 h2 hb
    rw [htype] at h1
    rw [hreq] at h2
    have hm : usb_handle_control t d req2 m = usb_tx_cp t d [0, 0] 2 m := by
      simp [usb_handle_control, h1, h2]
    rw [hm, usb_tx_cp_machine t d _ 2 m hb]
    exact ⟨rfl, rfl, rfl⟩
  · intro h1 h2 hb
    rw [htype] at h1
    rw [hreq] at h2
    rcases h2 with h2 | h2
    · have hm : usb_handle_control t d req2 m = usb_tx_cp t d [m.usb.config] 1 m := by
        simp [usb_handle_control, h1, h2]
      rw [hm, usb_tx_cp_machine t d _ 1 m hb]
      exact ⟨rfl, rfl, rfl⟩
    · have hm : usb_handle_control t d req2 m = usb_tx_cp t d [0, 0] 1 m := by
        simp [usb_handle_control, h1, h2]
      rw [hm, usb_tx_cp_machine t d _ 1 m hb]
      exact ⟨rfl, rfl, rfl⟩

/-- Witness of C20: GET_STATUS asking for 0 bytes at index 7 and GET_STATUS
asking for 2 bytes at index 0 are dispatched alike, and both queue 2 bytes. -/
theorem usb_handle_control_index_length_witness :
    usb_handle_control target32 (driver32 0)
        { type := usb_ctrl_req_type.USB_CTRL_REQ_STD, request := USB_CTRL_REQ_GET_STATUS,
          value := 0, index := 7, length := 0 } (machine0 64) =
      usb_handle_control target32 (driver32 0)
        { type := usb_ctrl_req_type.USB_CTRL_REQ_STD, request := USB_CTRL_REQ_GET_STATUS,
          value := 0, index := 0, length := 2 } (machine0 64) ∧
    (usb_handle_control target32 (driver32 0)
        { type := usb_ctrl_req_type.USB_CTRL_REQ_STD, request := USB_CTRL_REQ_GET_STATUS,
          value := 0, index := 0, length := 2 } (machine0 64)).2.log =
      (machine0 64).log ++
        [usb_event.tx_queue_next (cp_pipe (machine0 64).usb.ep0_state.tx 2)] :=
  have h := usb_handle_control_index_length target32 (driver32 0)
    { type := usb_ctrl_req_type.USB_CTRL_REQ_STD, request := USB_CTRL_REQ_GET_STATUS,
      value := 0, index := 7, length := 0 }
    { type := usb_ctrl_req_type.USB_CTRL_REQ_STD, request := USB_CTRL_REQ_GET_STATUS,
      value := 0, index := 0, length := 2 } (machine0 64) rfl rfl rfl
  ⟨h.1, (h.2.1 rfl rfl (by decide)).1⟩

end Usb
